import Mathlib

set_option maxRecDepth 16000

/-!
Verification development for the one-minute-agent repository.

This file shallowly embeds the parts of the code base the claims talk about:

* `src/nagents/base/agent.py` — `BaseAgent.chat`, `_reasoning_loop`,
  `_simple_response`, `_get_final_answer`;
* `src/ollama_agent/base/tool_registry.py` — `ToolExecutor.execute`;
* `src/ollama_agent/agents/emergency_agent.py` — `OneMinuteAgent`
  response parsing (strict JSON path and the malformed-line fallback);
* `src/one_minute_agent/communication/message_types.py`,
  `message_bus.py`, `event_logger.py` — the inter-agent message bus and
  the event logger.

Python dictionaries/JSON values are modelled by `JVal` (objects as
insertion-ordered association lists, mirroring Python 3.7+ dict order);
Python exceptions by `Except String`; mutable state (`self.messages`,
bus history, logger entries) by explicit state passing.  Wall-clock
timestamps and `uuid` identifiers are taken as parameters.  Strings are
manipulated at the `List Char` level so that the Python `str` operations
(`strip`, `lower`, `split`, slicing) have directly computable, provable
counterparts; only ASCII behaviour is relied on, which covers every
string the code compares against.
-/

/-- Model of a Python/JSON value.  Objects keep key insertion order,
exactly as Python 3.7+ dicts do. -/
inductive JVal where
  | jnull : JVal
  | jbool : Bool → JVal
  | jnum : Int → JVal
  | jstr : String → JVal
  | jarr : List JVal → JVal
  | jobj : List (String × JVal) → JVal
deriving Repr

/-- Python dict lookup `d.get(k)` on an insertion-ordered assoc list
(first binding wins; the code never creates duplicate keys). -/
def jlookup (kvs : List (String × JVal)) (k : String) : Option JVal :=
  (kvs.find? (fun p => p.1 = k)).map (·.2)

/-- Python dict lookup with default, `d.get(k, dflt)`. -/
def jlookupD (kvs : List (String × JVal)) (k : String) (dflt : JVal) : JVal :=
  (jlookup kvs k).getD dflt

/-- `d[k] = v` when `k not in d`: appends the binding at the end,
matching Python dict insertion order. -/
def jsetIfAbsent (kvs : List (String × JVal)) (k : String) (v : JVal) :
    List (String × JVal) :=
  if (jlookup kvs k).isSome then kvs else kvs ++ [(k, v)]

/-- Python truthiness (`bool(v)`) of a JSON value. -/
def pyFalsy : JVal → Bool
  | .jnull => true
  | .jbool b => !b
  | .jnum n => n == 0
  | .jstr s => s == ""
  | .jarr xs => xs.isEmpty
  | .jobj kvs => kvs.isEmpty

/-! ### Python string primitives, on `List Char` -/

/-- The whitespace characters Python's `str.strip()` and the JSON
decoder treat as blank (ASCII portion). -/
def pySpace (c : Char) : Bool :=
  c = ' ' || c = '\n' || c = '\t' || c = '\r' || c = '\x0b' || c = '\x0c'

/-- Drop matching characters from the right end. -/
def dropTrailingWhile (p : Char → Bool) (l : List Char) : List Char :=
  (l.reverse.dropWhile p).reverse

/-- Python `str.strip()`. -/
def stripL (l : List Char) : List Char :=
  dropTrailingWhile pySpace (l.dropWhile pySpace)

/-- Python `str.lower()` (ASCII). -/
def lowerL (l : List Char) : List Char := l.map Char.toLower

/-- Python `str.upper()` (ASCII). -/
def upperL (l : List Char) : List Char := l.map Char.toUpper

/-- Prefix test on character lists. -/
def startsWithL : List Char → List Char → Bool
  | _, [] => true
  | [], _ :: _ => false
  | c :: cs, d :: ds => c = d && startsWithL cs ds

/-- Python `sub in s` (substring containment). -/
def containsL (hay sub : List Char) : Bool :=
  if startsWithL hay sub then true
  else match hay with
    | [] => false
    | _ :: t => containsL t sub

/-- Python `s.split(sub, 1)[1]`: everything after the first occurrence
of `sub`; `none` when `sub` does not occur. -/
def splitAfterFirst : List Char → List Char → Option (List Char)
  | hay, sub =>
    if startsWithL hay sub then some (hay.drop sub.length)
    else match hay with
      | [] => none
      | _ :: t => splitAfterFirst t sub

/-- Python `s.split('\n')`. -/
def splitLinesL (l : List Char) : List (List Char) :=
  match l with
  | [] => [[]]
  | c :: t =>
    let rest := splitLinesL t
    if c = '\n' then [] :: rest
    else match rest with
      | [] => [[c]]
      | h :: r => (c :: h) :: r

/-- Python `s[1:-1]` (drop first and last character). -/
def dropEndsL (l : List Char) : List Char := (l.drop 1).dropLast

/-- Python `s[:n]`. -/
def takeL (n : Nat) (l : List Char) : List Char := l.take n

/-- Python list slice `xs[k:]` for an `int` index `k` (negative indices
count from the end). -/
def pySliceFrom {α : Type} (xs : List α) (k : Int) : List α :=
  if 0 ≤ k then xs.drop k.toNat
  else xs.drop (xs.length - min xs.length (-k).toNat)

/-! ### A model of `json.loads` (the subset the repository exercises)

Recursive-descent parser with fuel.  It covers objects, arrays, strings
with the simple escapes, `true`/`false`/`null` and integer literals;
floating-point literals and `\u` escapes are rejected (no claim and no
concrete input in this development involves them). -/

/-- Parse a JSON string body after the opening quote; returns the string
and the unconsumed input. -/
def jparseStringBody : Nat → List Char → Option (List Char × List Char)
  | 0, _ => none
  | _, [] => none
  | fuel + 1, c :: rest =>
    if c = '"' then some ([], rest)
    else if c = '\\' then
      match rest with
      | [] => none
      | e :: rest' =>
        let dec : Option Char :=
          if e = '"' then some '"'
          else if e = '\\' then some '\\'
          else if e = '/' then some '/'
          else if e = 'n' then some '\n'
          else if e = 't' then some '\t'
          else if e = 'r' then some '\r'
          else if e = 'b' then some '\x08'
          else if e = 'f' then some '\x0c'
          else none
        match dec with
        | none => none
        | some d =>
          match jparseStringBody fuel rest' with
          | none => none
          | some (s, rem) => some (d :: s, rem)
    else if c.toNat < 32 then none
    else
      match jparseStringBody fuel rest with
      | none => none
      | some (s, rem) => some (c :: s, rem)

/-- Parse a run of decimal digits. -/
def jparseDigits (l : List Char) : List Char × List Char :=
  (l.takeWhile Char.isDigit, l.dropWhile Char.isDigit)

/-- Decimal digits to a natural number. -/
def digitsToNat (ds : List Char) : Nat :=
  ds.foldl (fun acc c => acc * 10 + (c.toNat - 48)) 0

/-- Skip JSON whitespace. -/
def jskipWs (l : List Char) : List Char :=
  l.dropWhile (fun c => c = ' ' || c = '\n' || c = '\t' || c = '\r')

mutual
/-- Parse one JSON value. -/
def jparseVal : Nat → List Char → Option (JVal × List Char)
  | 0, _ => none
  | fuel + 1, l =>
    match jskipWs l with
    | [] => none
    | c :: rest =>
      if c = '"' then
        match jparseStringBody (fuel + 1) rest with
        | none => none
        | some (s, rem) => some (.jstr (String.mk s), rem)
      else if c = '\x7b' then
        jparseObjItems fuel (jskipWs rest) true []
      else if c = '[' then
        jparseArrItems fuel (jskipWs rest) true []
      else if startsWithL (c :: rest) ['t', 'r', 'u', 'e'] then
        some (.jbool true, (c :: rest).drop 4)
      else if startsWithL (c :: rest) ['f', 'a', 'l', 's', 'e'] then
        some (.jbool false, (c :: rest).drop 5)
      else if startsWithL (c :: rest) ['n', 'u', 'l', 'l'] then
        some (.jnull, (c :: rest).drop 4)
      else if c = '-' then
        match jparseDigits rest with
        | ([], _) => none
        | (ds, rem) =>
          if startsWithL rem ['.'] || startsWithL rem ['e'] || startsWithL rem ['E'] then none
          else some (.jnum (-(digitsToNat ds : Int)), rem)
      else if c.isDigit then
        match jparseDigits (c :: rest) with
        | ([], _) => none
        | (ds, rem) =>
          if startsWithL rem ['.'] || startsWithL rem ['e'] || startsWithL rem ['E'] then none
          else some (.jnum (digitsToNat ds : Int), rem)
      else none

/-- Parse the items of a JSON object after `\x7b`; `first` is true before
any item has been read. -/
def jparseObjItems : Nat → List Char → Bool → List (String × JVal) →
    Option (JVal × List Char)
  | 0, _, _, _ => none
  | fuel + 1, l, first, acc =>
    match l with
    | [] => none
    | c :: rest =>
      if c = '\x7d' ∧ first then some (.jobj acc.reverse, rest)
      else
        let l' := if first then l else
          match l with
          | c' :: r' => if c' = ',' then jskipWs r' else []
          | [] => []
        if ¬ first ∧ (l.headD ' ' ≠ ',') then
          if l.headD ' ' = '\x7d' then some (.jobj acc.reverse, l.drop 1) else none
        else
          match l' with
          | c'' :: r'' =>
            if c'' = '"' then
              match jparseStringBody (fuel + 1) r'' with
              | none => none
              | some (k, rem) =>
                match jskipWs rem with
                | ':' :: rem' =>
                  match jparseVal fuel rem' with
                  | none => none
                  | some (v, rem'') =>
                    jparseObjItems fuel (jskipWs rem'') false
                      ((String.mk k, v) :: acc)
                | _ => none
            else none
          | [] => none

/-- Parse the items of a JSON array after `[`. -/
def jparseArrItems : Nat → List Char → Bool → List JVal →
    Option (JVal × List Char)
  | 0, _, _, _ => none
  | fuel + 1, l, first, acc =>
    match l with
    | [] => none
    | c :: rest =>
      if c = ']' ∧ first then some (.jarr acc.reverse, rest)
      else
        if ¬ first ∧ (l.headD ' ' ≠ ',') then
          if l.headD ' ' = ']' then some (.jarr acc.reverse, l.drop 1) else none
        else
          let l' := if first then l else jskipWs (l.drop 1)
          match jparseVal fuel l' with
          | none => none
          | some (v, rem) => jparseArrItems fuel (jskipWs rem) false (v :: acc)
end

/-- Model of `json.loads` on a character list: parse one value and
require only whitespace to remain; `none` models `JSONDecodeError`. -/
def jsonLoads (l : List Char) : Option JVal :=
  match jparseVal (l.length + 1) l with
  | none => none
  | some (v, rem) => if jskipWs rem = [] then some v else none

/-- JSON string escaping as `json.dumps` performs it for the characters
this code base produces. -/
def jdumpStringBody (s : List Char) : List Char :=
  s.foldr
    (fun c acc =>
      if c = '"' then '\\' :: '"' :: acc
      else if c = '\\' then '\\' :: '\\' :: acc
      else if c = '\n' then '\\' :: 'n' :: acc
      else if c = '\t' then '\\' :: 't' :: acc
      else if c = '\r' then '\\' :: 'r' :: acc
      else c :: acc) []

mutual
/-- Model of `json.dumps` (default separators `", "` and `": "`). -/
def jsonDumps : JVal → String
  | .jnull => "null"
  | .jbool true => "true"
  | .jbool false => "false"
  | .jnum n => toString n
  | .jstr s => String.mk ('"' :: jdumpStringBody s.data ++ ['"'])
  | .jarr xs => "[" ++ jsonDumpsArr xs ++ "]"
  | .jobj kvs => "\x7b" ++ jsonDumpsObj kvs ++ "\x7d"

/-- Array items joined by `", "`. -/
def jsonDumpsArr : List JVal → String
  | [] => ""
  | [x] => jsonDumps x
  | x :: y :: t => jsonDumps x ++ ", " ++ jsonDumpsArr (y :: t)

/-- Object items `"k": v` joined by `", "`. -/
def jsonDumpsObj : List (String × JVal) → String
  | [] => ""
  | [(k, v)] => String.mk ('"' :: jdumpStringBody k.data ++ ['"']) ++ ": " ++ jsonDumps v
  | (k, v) :: p :: t =>
      String.mk ('"' :: jdumpStringBody k.data ++ ['"']) ++ ": " ++ jsonDumps v
        ++ ", " ++ jsonDumpsObj (p :: t)
end

example : jsonLoads "\x7b\"thought\": \"Call Now\"\x7d".data
    = some (.jobj [("thought", .jstr "Call Now")]) := rfl

example : jsonLoads "thought: \"call now\"".data = none := rfl

example : jsonLoads "[1, -2, true, null]".data
    = some (.jarr [.jnum 1, .jnum (-2), .jbool true, .jnull]) := rfl

example : jsonDumps (.jobj [("status", .jstr "error"), ("message", .jstr "x")])
    = "\x7b\"status\": \"error\", \"message\": \"x\"\x7d" := rfl

/-! ### `src/ollama_agent/base/tool_registry.py` — `ToolExecutor`

`ToolDefinition.func` (and `asyncio.run` around an async `func`) is a
callable that either returns a value or raises; both kinds are modelled
as `run : JVal → Except String JVal` (argument dict in, result out, the
`String` being the exception text `str(e)`).  The registry's
`self.tools` dict is the list of definitions, looked up by name. -/

structure ToolDefinition where
  name : String
  run : JVal → Except String JVal

/-- `registry.has_tool` / `self.registry.tools[tool_name]`. -/
def findTool (tools : List ToolDefinition) (tool_name : String) :
    Option ToolDefinition :=
  tools.find? (fun t => t.name = tool_name)

namespace ToolExecutor

/-- `ToolExecutor.execute` (tool_registry.py lines 118–150).  Total: the
Python method catches every exception from the tool body and never
raises to its caller. -/
def execute (tools : List ToolDefinition) (tool_name : String) (args : JVal) :
    JVal :=
  match findTool tools tool_name with
  | none =>
      .jobj [("status", .jstr "error"),
             ("message", .jstr ("Tool '" ++ tool_name ++ "' not found"))]
  | some tool =>
      match tool.run args with
      | .ok result =>
          .jobj [("status", .jstr "success"),
                 ("data", result),
                 ("tool", .jstr tool_name)]
      | .error e =>
          .jobj [("status", .jstr "error"),
                 ("message", .jstr ("Tool execution failed: " ++ e)),
                 ("tool", .jstr tool_name)]

end ToolExecutor

/-- Key lookup inside a `JVal.jobj` result envelope. -/
def jobjLookup (v : JVal) (k : String) : Option JVal :=
  match v with
  | .jobj kvs => jlookup kvs k
  | _ => none

/-! ### `src/nagents/base/agent.py` — `BaseAgent`

The abstract methods of `BaseAgent` and the `ModelProvider`/
`ToolExecutor` protocols become record fields of `AgentCfg`; any of them
may raise (`Except String`).  `self.messages` is threaded explicitly.
Every model-provider call is additionally recorded in a prompt log (the
system/final prompt it was made with), so that claims about the number
of model calls are statable; the log is instrumentation only and does
not influence control flow. -/

/-- `Message` dataclass (role, content; the optional metadata field is
never consulted by any code path under study). -/
structure Message where
  role : String
  content : String
deriving Repr, DecidableEq

/-- An entry of `executed_tools`: the dict
`{"tool": action, "args": ..., "result": ...}`. -/
structure ExecutedTool where
  tool : String
  args : JVal
  result : JVal
deriving Repr

/-- `AgentResponse` dataclass; `metadata` is the dict the code builds. -/
structure AgentResponse where
  content : String
  tools_executed : List ExecutedTool
  metadata : List (String × JVal)
deriving Repr

/-- The `ToolExecutor` protocol as the reasoning loop sees it:
`get_available_tools()` key set and `execute`. -/
structure ExecModel where
  availableTools : List String
  execute : String → JVal → Except String JVal

/-- The abstract methods a `BaseAgent` subclass provides, plus the model
provider.  A parsed reasoning step is the Python dict the subclass
returns. -/
structure AgentCfg where
  provider : List Message → String → Except String String
  shouldUseReasoningLoop : String → Except String Bool
  buildSystemPrompt : Except String String
  parseReasoningResponse : String → Except String (Option (List (String × JVal)))
  parseFinalResponse : String → Except String String
  toolExecutor : Option ExecModel
  maxIterations : Nat

/-- The `FINAL ANSWER MODE` prompt of `_get_final_answer` (its exact
text never matters to the claims; it is kept as an opaque marker
distinct from nothing in particular). -/
def finalPrompt : String :=
  "FINAL ANSWER MODE: Based on the conversation context and actual data gathered from tool results, provide your final response clearly and decisively."

/-- Outcome of one iteration of the `for` body in `_reasoning_loop`. -/
inductive StepOut where
  | raiseE (e : String)
  | doneB
  | contT (msg : Message) (et : ExecutedTool)

/-- One iteration of `_reasoning_loop`'s `for` body (agent.py lines
128–184): model call, parse, action triage, optional tool execution.
`doneB` is `break`; `contT` carries the appended tool-result message
and the `executed_tools` entry. -/
def loopStep (cfg : AgentCfg) (sysPrompt : String) (msgs : List Message)
    (called : List String) : StepOut :=
  match cfg.provider msgs sysPrompt with
  | .error e => .raiseE e
  | .ok response =>
    match cfg.parseReasoningResponse response with
    | .error e => .raiseE e
    | .ok none => .doneB
    | .ok (some parsed) =>
      match jlookup parsed "action" with
      | none => .doneB
      | some av =>
        if pyFalsy av then .doneB
        else
          match av with
          | .jstr action =>
            if String.mk (lowerL action.data) = "none" then .doneB
            else
              match cfg.toolExecutor with
              | none => .doneB
              | some ex =>
                if ex.availableTools.contains action &&
                    !(called.contains action) then
                  let args := jlookupD parsed "actionInput" (.jobj [])
                  match ex.execute action args with
                  | .error e => .raiseE e
                  | .ok tool_result =>
                    .contT ⟨"system", "Tool result: " ++ jsonDumps tool_result⟩
                      ⟨action, args, tool_result⟩
                else .doneB
          | _ => .raiseE "AttributeError: object has no attribute lower"

/-- Result of the `for` loop: `executed_tools` and the final value of the
Python loop variable `iteration` (`none` when the body never ran —
referencing it afterwards raises `NameError`). -/
structure LoopOut where
  executed : List ExecutedTool
  lastIter : Option Nat
deriving Repr

/-- The `for iteration in range(self.max_iterations)` loop of
`_reasoning_loop`, recursing on the remaining iteration count;
`i` is the current value of `iteration`. -/
def loopGo (cfg : AgentCfg) (sysPrompt : String) :
    Nat → Nat → List Message → List ExecutedTool → List String →
    List String → List Message × List String × Except String LoopOut
  | 0, i, msgs, executed, _, promptLog =>
      (msgs, promptLog, .ok ⟨executed, if i = 0 then none else some (i - 1)⟩)
  | r + 1, i, msgs, executed, called, promptLog =>
      let promptLog' := promptLog ++ [sysPrompt]
      match loopStep cfg sysPrompt msgs called with
      | .raiseE e => (msgs, promptLog', .error e)
      | .doneB => (msgs, promptLog', .ok ⟨executed, some i⟩)
      | .contT m et =>
          loopGo cfg sysPrompt r (i + 1) (msgs ++ [m]) (executed ++ [et])
            (called ++ [et.tool]) promptLog'

/-- `BaseAgent._reasoning_loop` (agent.py lines 121–200), including the
trailing `_get_final_answer` model call and the `AgentResponse`
construction (whose metadata dereferences `iteration`). -/
def reasoningLoop (cfg : AgentCfg) (msgs : List Message) :
    List Message × List String × Except String AgentResponse :=
  match cfg.buildSystemPrompt with
  | .error e => (msgs, [], .error e)
  | .ok sysPrompt =>
    match loopGo cfg sysPrompt cfg.maxIterations 0 msgs [] [] [] with
    | (msgs2, log2, .error e) => (msgs2, log2, .error e)
    | (msgs2, log2, .ok out) =>
      let log3 := log2 ++ [finalPrompt]
      match cfg.provider msgs2 finalPrompt with
      | .error e => (msgs2, log3, .error e)
      | .ok response =>
        match cfg.parseFinalResponse response with
        | .error e => (msgs2, log3, .error e)
        | .ok final_response =>
          let msgs3 := msgs2 ++ [⟨"assistant", final_response⟩]
          match out.lastIter with
          | none => (msgs3, log3, .error "NameError: name 'iteration' is not defined")
          | some it =>
            (msgs3, log3, .ok ⟨final_response, out.executed,
              [("thinking_iterations", .jnum (it + 1)),
               ("tools_used", .jnum out.executed.length)]⟩)

/-- `BaseAgent._simple_response` (agent.py lines 202–220). -/
def simpleResponse (cfg : AgentCfg) (msgs : List Message) :
    List Message × List String × Except String AgentResponse :=
  match cfg.buildSystemPrompt with
  | .error e => (msgs, [], .error e)
  | .ok sysPrompt =>
    match cfg.provider msgs sysPrompt with
    | .error e => (msgs, [sysPrompt], .error e)
    | .ok response =>
      match cfg.parseFinalResponse response with
      | .error e => (msgs, [sysPrompt], .error e)
      | .ok final_response =>
        (msgs ++ [⟨"assistant", final_response⟩], [sysPrompt],
         .ok ⟨final_response, [], [("type", .jstr "simple")]⟩)

/-- The body of the `try:` block of `BaseAgent.chat` (agent.py lines
69–75): append the user turn, then branch on
`should_use_reasoning_loop`. -/
def chatBody (cfg : AgentCfg) (msgs : List Message) (user_input : String) :
    List Message × List String × Except String AgentResponse :=
  let msgs1 := msgs ++ [⟨"user", user_input⟩]
  match cfg.shouldUseReasoningLoop user_input with
  | .error e => (msgs1, [], .error e)
  | .ok true => reasoningLoop cfg msgs1
  | .ok false => simpleResponse cfg msgs1

/-- `BaseAgent.chat` (agent.py lines 64–87): the `except` handler pops
the trailing message when its role is `"user"` and returns the generic
failure `AgentResponse`; `chat` itself is total (never raises). -/
def chat (cfg : AgentCfg) (msgs : List Message) (user_input : String) :
    List Message × List String × AgentResponse :=
  match chatBody cfg msgs user_input with
  | (m, log, .ok resp) => (m, log, resp)
  | (m, log, .error e) =>
    let m' :=
      match m.getLast? with
      | some lastMsg => if lastMsg.role = "user" then m.dropLast else m
      | none => m
    (m', log,
     ⟨"I encountered an error processing your request. Please try again.",
      [], [("error", .jstr e)]⟩)

/-! ### `src/ollama_agent/agents/emergency_agent.py` — `OneMinuteAgent`
response parsing -/

namespace OneMinuteAgent

/-- `_extract_value_from_line` (emergency_agent.py lines 123–143).
Works on the already-`strip()`ed line; the key variants are tried in
the source order `[f'"\x7bkey\x7d":', f'\x7bkey\x7d:']`, the value is
taken from `line.lower()`, stripped, trailing commas removed, and a
single layer of matching double or single quotes peeled. -/
def extract_value_from_line (line : List Char) (key : List Char) : List Char :=
  let low := lowerL line
  let variant1 := '"' :: (key ++ ['"', ':'])
  let variant2 := key ++ [':']
  let value0 : Option (List Char) :=
    if containsL low variant1 then splitAfterFirst low variant1
    else if containsL low variant2 then splitAfterFirst low variant2
    else none
  match value0 with
  | none => []
  | some v0 =>
    let v1 := dropTrailingWhile (fun c => c = ',') (stripL v0)
    if v1.head? = some '"' && v1.getLast? = some '"' then dropEndsL v1
    else if v1.head? = some '\x27' && v1.getLast? = some '\x27' then dropEndsL v1
    else v1

/-- Accumulator for `_parse_malformed_reasoning`'s result dict. -/
structure MRAcc where
  thought : List Char
  action : List Char
  actionInput : JVal

/-- One line of `_parse_malformed_reasoning`'s `for` loop (lines
108–119): strip the line, dispatch on the first matching marker. -/
def mrStep (acc : MRAcc) (rawLine : List Char) : MRAcc :=
  let line := stripL rawLine
  let low := lowerL line
  if containsL low ("thought:".data) || containsL low ("\"thought\":".data) then
    { acc with thought := extract_value_from_line line ("thought".data) }
  else if containsL low ("action:".data) || containsL low ("\"action\":".data) then
    { acc with action := extract_value_from_line line ("action".data) }
  else if containsL low ("actioninput:".data) ||
      containsL low ("\"actioninput\":".data) then
    let input_str := extract_value_from_line line ("actioninput".data)
    { acc with actionInput :=
        if input_str ≠ [] ∧ input_str ≠ "null".data then
          (jsonLoads input_str).getD (.jobj [])
        else .jobj [] }
  else acc

/-- `_parse_malformed_reasoning` (lines 99–121): line-oriented fallback
extractor.  Returns `none` exactly when neither a non-empty `thought`
nor a non-`"None"` `action` was synthesized. -/
def parse_malformed_reasoning (response : String) :
    Option (List (String × JVal)) :=
  let lines := splitLinesL (stripL response.data)
  let r := lines.foldl mrStep ⟨[], "None".data, .jobj []⟩
  if r.thought ≠ [] ∨ r.action ≠ "None".data then
    some [("thought", .jstr (String.mk r.thought)),
          ("action", .jstr (String.mk r.action)),
          ("actionInput", r.actionInput)]
  else none

/-- `parse_reasoning_response` (lines 82–97): strict
`json.loads(response.strip())` first; a decoded non-dict makes the
subsequent `"thought" not in parsed` / item assignment raise (only
`JSONDecodeError` is caught); on decode failure the malformed-line
fallback runs on the original response. -/
def parse_reasoning_response (response : String) :
    Except String (Option (List (String × JVal))) :=
  match jsonLoads (stripL response.data) with
  | some (.jobj kvs) =>
      .ok (some (jsetIfAbsent (jsetIfAbsent (jsetIfAbsent kvs
        "thought" (.jstr "Analyzing emergency situation..."))
        "action" (.jstr "None"))
        "actionInput" (.jobj [])))
  | some _ => .error "TypeError: argument of type is not a dict"
  | none => .ok (parse_malformed_reasoning response)

/-- `parse_final_response` (lines 145–151).  A decoded non-dict raises
`AttributeError` at `parsed.get` (uncaught); a non-string `"answer"`
value flows through untyped in Python and is rendered here via
`jsonDumps` (no claim depends on that corner). -/
def parse_final_response (response : String) : Except String String :=
  match jsonLoads (stripL response.data) with
  | none => .ok (String.mk (stripL response.data))
  | some (.jobj kvs) =>
      match jlookup kvs "answer" with
      | some (.jstr s) => .ok s
      | some v => .ok (jsonDumps v)
      | none => .ok (String.mk (stripL response.data))
  | some _ => .error "AttributeError: object has no attribute get"

end OneMinuteAgent

/-! ### `src/one_minute_agent/communication/message_types.py` -/

/-- `AgentRole` enum. -/
inductive AgentRole where
  | victim_assistant
  | operator
  | system
deriving Repr, DecidableEq

/-- `AgentRole.value`. -/
def AgentRole.value : AgentRole → String
  | .victim_assistant => "victim_assistant"
  | .operator => "operator"
  | .system => "system"

/-- `MessageType` enum. -/
inductive MessageType where
  | situation_update
  | dispatch_update
  | status_update
  | emergency_escalation
  | coordination_request
  | acknowledgment
deriving Repr, DecidableEq

/-- `MessageType.value`. -/
def MessageType.value : MessageType → String
  | .situation_update => "situation_update"
  | .dispatch_update => "dispatch_update"
  | .status_update => "status_update"
  | .emergency_escalation => "emergency_escalation"
  | .coordination_request => "coordination_request"
  | .acknowledgment => "acknowledgment"

/-- `Priority` enum. -/
inductive Priority where
  | critical
  | high
  | medium
  | low
deriving Repr, DecidableEq

/-- `Priority.value` (the numeric enum values 1–4). -/
def Priority.value : Priority → Int
  | .critical => 1
  | .high => 2
  | .medium => 3
  | .low => 4

/-- `InterAgentMessage` dataclass.  The `uuid` default `id` is a
parameter; the wall-clock `timestamp` field is not modelled (no claim
mentions it). -/
structure InterAgentMessage where
  id : String
  sender : AgentRole
  recipient : AgentRole
  message_type : MessageType
  priority : Priority
  content : List (String × JVal)
  metadata : List (String × JVal)
  requires_response : Bool
  response_timeout_seconds : Option Int
deriving Repr

/-- The `SituationUpdate` constructor (message_types.py lines 82–105) /
`create_situation_update` helper (lines 179–193): fixed
victim_assistant → operator routing, `SITUATION_UPDATE` type, caller
priority (default `HIGH`), 60-second response window. -/
def create_situation_update (id : String) (situation : String)
    (victim_status : JVal) (hazards : List String) (needs : List String)
    (priority : Priority) : InterAgentMessage :=
  { id := id
    sender := .victim_assistant
    recipient := .operator
    message_type := .situation_update
    priority := priority
    content := [("situation_description", .jstr situation),
                ("victim_status", victim_status),
                ("environmental_hazards", .jarr (hazards.map .jstr)),
                ("immediate_needs", .jarr (needs.map .jstr))]
    metadata := []
    requires_response := true
    response_timeout_seconds := some 60 }

/-! ### `src/one_minute_agent/communication/message_bus.py` —
`EmergencyMessageBus`

Callbacks mutate an external world `W` (e.g. the event logger) and may
raise; `publish` wraps every invocation in `try/except`, so a raising
callback keeps its partial world mutation but never stops delivery —
exactly the source's per-callback `try: callback(message) except: print`.
The `threading.Lock` serialises bus operations; the embedding models the
sequential (lock-held) semantics. -/

/-- A subscriber / event-listener callback. -/
structure Cb (W : Type) where
  run : InterAgentMessage → W → W × Except String Unit

/-- `EmergencyMessageBus` state: the `defaultdict(list)` of subscribers,
the chronological history, the per-priority buckets, and the event
callbacks. -/
structure EmergencyBusState (W : Type) where
  subscribers : AgentRole → List (Cb W)
  message_history : List InterAgentMessage
  priority_queue : Priority → List InterAgentMessage
  event_callbacks : List (Cb W)

/-- A fresh `EmergencyMessageBus()`. -/
def emptyBus (W : Type) : EmergencyBusState W :=
  { subscribers := fun _ => []
    message_history := []
    priority_queue := fun _ => []
    event_callbacks := [] }

/-- `MessageBus.subscribe` (message_bus.py lines 24–27). -/
def subscribe {W : Type} (st : EmergencyBusState W) (role : AgentRole)
    (cb : Cb W) : EmergencyBusState W :=
  { st with subscribers := fun r =>
      if r = role then st.subscribers r ++ [cb] else st.subscribers r }

/-- `EmergencyMessageBus.add_event_listener` (lines 65–67). -/
def add_event_listener {W : Type} (st : EmergencyBusState W) (cb : Cb W) :
    EmergencyBusState W :=
  { st with event_callbacks := st.event_callbacks ++ [cb] }

/-- The `for callback in ...: try: callback(message) except: print(...)`
delivery loop: each callback's world mutation is kept, its exception is
swallowed, and the iteration continues. -/
def deliver {W : Type} (cbs : List (Cb W)) (m : InterAgentMessage) (w : W) :
    W :=
  cbs.foldl (fun w cb => (cb.run m w).1) w

/-- `EmergencyMessageBus.publish` (lines 69–93): append to the priority
bucket, append to the history, notify event listeners, deliver to the
recipient role's subscribers, return `True`. -/
def publish {W : Type} (st : EmergencyBusState W) (m : InterAgentMessage)
    (w : W) : EmergencyBusState W × W × Bool :=
  let st' := { st with
    priority_queue := fun p =>
      if p = m.priority then st.priority_queue p ++ [m] else st.priority_queue p
    message_history := st.message_history ++ [m] }
  let w1 := deliver st.event_callbacks m w
  let w2 := deliver (st.subscribers m.recipient) m w1
  (st', w2, true)

/-- `MessageBus.get_message_history` (lines 44–49): `if limit:` is
Python-falsy for both `None` and `0`; a non-zero limit takes the slice
`[-limit:]`. -/
def get_message_history {W : Type} (st : EmergencyBusState W)
    (limit : Option Int) : List InterAgentMessage :=
  match limit with
  | none => st.message_history
  | some l => if l = 0 then st.message_history
              else pySliceFrom st.message_history (-l)

/-- `EmergencyMessageBus.get_priority_messages` (lines 95–98). -/
def get_priority_messages {W : Type} (st : EmergencyBusState W)
    (p : Priority) : List InterAgentMessage :=
  st.priority_queue p

/-- Sequential publishes (helper for stating history claims). -/
def publishSeq {W : Type} (st : EmergencyBusState W) (w : W) :
    List InterAgentMessage → EmergencyBusState W × W
  | [] => (st, w)
  | m :: ms =>
    let r := publish st m w
    publishSeq r.1 r.2.1 ms

/-! ### `src/one_minute_agent/communication/event_logger.py` -/

/-- `LogLevel` enum. -/
inductive LogLevel where
  | debug
  | info
  | warning
  | error
  | critical
deriving Repr, DecidableEq

mutual
/-- Python `repr()` of a modelled value (single-quoted strings), used by
the f-string fallbacks of `_format_message_for_log`. -/
def pyRepr : JVal → String
  | .jnull => "None"
  | .jbool true => "True"
  | .jbool false => "False"
  | .jnum n => toString n
  | .jstr s => "\x27" ++ s ++ "\x27"
  | .jarr xs => "[" ++ pyReprArr xs ++ "]"
  | .jobj kvs => "\x7b" ++ pyReprObj kvs ++ "\x7d"

/-- List items of a `repr`, comma separated. -/
def pyReprArr : List JVal → String
  | [] => ""
  | [x] => pyRepr x
  | x :: y :: t => pyRepr x ++ ", " ++ pyReprArr (y :: t)

/-- Dict items of a `repr`, comma separated. -/
def pyReprObj : List (String × JVal) → String
  | [] => ""
  | [(k, v)] => "\x27" ++ k ++ "\x27: " ++ pyRepr v
  | (k, v) :: p :: t => "\x27" ++ k ++ "\x27: " ++ pyRepr v ++ ", " ++ pyReprObj (p :: t)
end

/-- Python `str()` of a modelled value inside an f-string. -/
def pyStr : JVal → String
  | .jstr s => s
  | v => pyRepr v

/-- `message.content.get(k, default)` where the code then uses the value
as a `str` (every message the system builds stores a `str` there; a
non-string value is replaced by the default rather than modelling the
downstream `TypeError`). -/
def contentStrD (content : List (String × JVal)) (k : String)
    (dflt : String) : String :=
  match jlookup content k with
  | some (.jstr s) => s
  | _ => dflt

/-- `LogEntry` dataclass (timestamp omitted — wall clock). -/
structure LogEntry where
  level : LogLevel
  source : String
  message : String
  metadata : List (String × JVal)
deriving Repr

/-- `EventLogger` state. -/
structure EventLogger where
  entries : List LogEntry
  max_entries : Nat

namespace EventLogger

/-- `_get_log_level_for_message` (event_logger.py lines 88–96): the
priority→level dict covers every `Priority` member, so the `.get`
default `INFO` is unreachable. -/
def get_log_level_for_message (m : InterAgentMessage) : LogLevel :=
  match m.priority with
  | .critical => .critical
  | .high => .warning
  | .medium => .info
  | .low => .debug

/-- `_format_message_for_log` (lines 98–114). -/
def format_message_for_log (m : InterAgentMessage) : String :=
  match m.message_type with
  | .situation_update =>
      let situation := contentStrD m.content "situation_description"
        "Unknown situation"
      "Situation update: " ++ String.mk (takeL 50 situation.data) ++ "..."
  | .dispatch_update =>
      let status := contentStrD m.content "dispatch_status" "Unknown status"
      let eta := pyStr (jlookupD m.content "responder_eta" (.jstr "Unknown ETA"))
      "Dispatch update: " ++ status ++ ", ETA " ++ eta ++ " min"
  | .status_update =>
      "Status: " ++ contentStrD m.content "status" "Status update"
  | .emergency_escalation =>
      "ESCALATION: " ++ contentStrD m.content "escalation_reason"
        "Emergency escalation"
  | t =>
      t.value ++ ": " ++
        String.mk (takeL 50 (pyStr (.jobj m.content)).data) ++ "..."

/-- The `LogEntry` that `log_message` builds for a message. -/
def entryFor (m : InterAgentMessage) : LogEntry :=
  { level := get_log_level_for_message m
    source := String.mk (upperL m.sender.value.data)
    message := format_message_for_log m
    metadata := [("message_id", .jstr m.id),
                 ("message_type", .jstr m.message_type.value),
                 ("priority", .jnum m.priority.value),
                 ("recipient", .jstr m.recipient.value)] }

/-- `_add_entry` (lines 82–86): append, then pop the front once if the
maximum size is exceeded. -/
def add_entry (st : EventLogger) (e : LogEntry) : EventLogger :=
  let es := st.entries ++ [e]
  { st with entries := if st.max_entries < es.length then es.drop 1 else es }

/-- `log_message` (lines 57–70). -/
def log_message (st : EventLogger) (m : InterAgentMessage) : EventLogger :=
  add_entry st (entryFor m)

/-- `get_entries` (lines 116–126); `if level:`/`if limit:` follow Python
truthiness (an enum member is always truthy, a 0 limit is falsy). -/
def get_entries (st : EventLogger) (limit : Option Int)
    (level : Option LogLevel) : List LogEntry :=
  let e1 := match level with
    | some lv => st.entries.filter (fun e => e.level = lv)
    | none => st.entries
  match limit with
  | none => e1
  | some l => if l = 0 then e1 else pySliceFrom e1 (-l)

end EventLogger

/-- `CoordinationSystem._log_message_event` (coordination_system.py
lines 79–81), the event listener `__init__` attaches to the bus: it
forwards the message to `EventLogger.log_message` and never raises. -/
def log_message_event : Cb EventLogger :=
  ⟨fun m st => (EventLogger.log_message st m, .ok ())⟩

/-! ### Generic list lemmas used by the claim proofs -/

/-- The Python slice `xs[-1:]` of a non-empty list is its last element. -/
theorem pySliceFrom_neg_one_concat {α : Type} (l : List α) (a : α) :
    pySliceFrom (l ++ [a]) (-1) = [a] := by
  unfold pySliceFrom
  have h0 : ¬ (0 ≤ (-1 : Int)) := by decide
  simp only [h0, if_false]
  have h1 : (-(-1 : Int)).toNat = 1 := by decide
  rw [h1]
  have h2 : (l ++ [a]).length = l.length + 1 := by simp
  rw [h2]
  have h3 : l.length + 1 - min (l.length + 1) 1 = l.length := by omega
  rw [h3]
  exact List.drop_left l [a]

/-- Dropping from the left of a concat keeps the last element, as long
as something of the prefix survives. -/
theorem getLast?_drop_concat {α : Type} (l : List α) (a : α) (n : Nat)
    (h : n ≤ l.length) : ((l ++ [a]).drop n).getLast? = some a := by
  rw [List.drop_append_of_le_length h]
  exact List.getLast?_concat _

/-! ### Claim C2 — `ToolExecutor.execute` result envelopes -/

/-- Claim C2 (corrected).  `ToolExecutor.execute` is a total function
(the Python method catches every tool-body exception), and its result
envelopes are: for an unregistered name, exactly
`{"status": "error", "message": "Tool '<n>' not found"}` — with **no**
`"tool"` key; for a registered tool, a success or error envelope that
does echo the tool name under `"tool"`. -/
theorem C2_envelope_amended (tools : List ToolDefinition) (n : String)
    (args : JVal) :
    (findTool tools n = none →
      ToolExecutor.execute tools n args
        = .jobj [("status", .jstr "error"),
                 ("message", .jstr ("Tool '" ++ n ++ "' not found"))] ∧
      jobjLookup (ToolExecutor.execute tools n args) "tool" = none) ∧
    (∀ t, findTool tools n = some t →
      jobjLookup (ToolExecutor.execute tools n args) "tool"
        = some (.jstr n) ∧
      ((∃ d, t.run args = .ok d ∧
          ToolExecutor.execute tools n args
            = .jobj [("status", .jstr "success"), ("data", d),
                     ("tool", .jstr n)]) ∨
       (∃ e, t.run args = .error e ∧
          ToolExecutor.execute tools n args
            = .jobj [("status", .jstr "error"),
                     ("message", .jstr ("Tool execution failed: " ++ e)),
                     ("tool", .jstr n)]))) := by
  constructor
  · intro hnone
    unfold ToolExecutor.execute
    rw [hnone]
    exact ⟨rfl, rfl⟩
  · intro t hsome
    cases hrun : t.run args with
    | ok d =>
      have he : ToolExecutor.execute tools n args
          = .jobj [("status", .jstr "success"), ("data", d),
                   ("tool", .jstr n)] := by
        simp only [ToolExecutor.execute, hsome, hrun]
      rw [he]
      exact ⟨rfl, .inl ⟨d, rfl, rfl⟩⟩
    | error e =>
      have he : ToolExecutor.execute tools n args
          = .jobj [("status", .jstr "error"),
                   ("message", .jstr ("Tool execution failed: " ++ e)),
                   ("tool", .jstr n)] := by
        simp only [ToolExecutor.execute, hsome, hrun]
      rw [he]
      exact ⟨rfl, .inr ⟨e, rfl, rfl⟩⟩

/-- A registered tool for the C2 witness. -/
def toolW : ToolDefinition := ⟨"get_location", fun _ => .ok (.jstr "123 Main Street")⟩

/-- Witness for C2: at concrete inputs, a registered tool's envelope
echoes `"tool"` while the not-found envelope has no `"tool"` key. -/
theorem C2_envelope_amended_witness :
    jobjLookup (ToolExecutor.execute [toolW] "get_location" (.jobj []))
      "tool" = some (.jstr "get_location") ∧
    jobjLookup (ToolExecutor.execute [toolW] "ghost" (.jobj [])) "tool"
      = none :=
  ⟨((C2_envelope_amended [toolW] "get_location" (.jobj [])).2 toolW rfl).1,
   ((C2_envelope_amended [toolW] "ghost" (.jobj [])).1 rfl).2⟩

/-- Counterexample for C2 as stated: the tool-not-found envelope is
`{status, message}` only — it does not echo the tool name under the
key `"tool"`. -/
theorem C2_counterexample :
    ToolExecutor.execute [] "ghost" (.jobj [])
      = .jobj [("status", .jstr "error"),
               ("message", .jstr "Tool 'ghost' not found")] ∧
    jobjLookup (ToolExecutor.execute [] "ghost" (.jobj [])) "tool" = none :=
  ⟨rfl, rfl⟩

/-! ### Claim C6 — delivery on the message bus -/

/-- A concrete trace-recording subscriber. -/
def cbLog (name : String) : Cb (List String) :=
  ⟨fun m w => (w ++ [name ++ ":" ++ m.id], .ok ())⟩

/-- A concrete subscriber that records its invocation and then raises. -/
def cbRaiseLog (name : String) : Cb (List String) :=
  ⟨fun m w => (w ++ [name ++ ":" ++ m.id], .error "subscriber blew up")⟩

/-- Concrete bus: event listener `L`; operator subscribers `s1` (which
raises) and `s2`; victim-assistant subscriber `s3`. -/
def busC6 : EmergencyBusState (List String) :=
  add_event_listener
    (subscribe
      (subscribe
        (subscribe (emptyBus (List String)) .operator (cbRaiseLog "s1"))
        .operator (cbLog "s2"))
      .victim_assistant (cbLog "s3"))
    (cbLog "L")

/-- A minimal message addressed to the operator. -/
def msgTo (id : String) (r : AgentRole) : InterAgentMessage :=
  ⟨id, .system, r, .status_update, .medium, [], [], false, none⟩

/-- Claim C6 (confirmed).  `publish` delivers `m` to exactly the
callbacks subscribed for `m.recipient` — all of them, in subscription
order, after the event listeners, with each callback's exception
swallowed so that it cannot stop delivery — and returns `True`; the
subscriber table itself is untouched, so across sequential publishes
each subscriber sees messages in publish order.  The concrete run shows
a raising subscriber (`s1`) not preventing `s2`, and the
other-role subscriber `s3` receiving nothing, across two publishes. -/
theorem C6_delivery :
    (∀ (W : Type) (st : EmergencyBusState W) (m : InterAgentMessage) (w : W),
       (publish st m w).2.1
         = deliver (st.subscribers m.recipient) m
             (deliver st.event_callbacks m w) ∧
       (publish st m w).2.2 = true ∧
       (publish st m w).1.subscribers = st.subscribers ∧
       (publish st m w).1.event_callbacks = st.event_callbacks) ∧
    (publish (publish busC6 (msgTo "m1" .operator) []).1
        (msgTo "m2" .operator)
        (publish busC6 (msgTo "m1" .operator) []).2.1).2.1
      = ["L:m1", "s1:m1", "s2:m1", "L:m2", "s1:m2", "s2:m2"] :=
  ⟨fun _ _ _ _ => ⟨rfl, rfl, rfl, rfl⟩, rfl⟩

/-! ### Claim C7 — history is publish-ordered, buckets are a view -/

/-- Claim C7 (confirmed).  `publish` returns `True` and appends to the
chronological history; a sequence of sequential publishes appends them
all in order (so the length equals the publish count and the last
publish is the last element of `get_message_history`, which — like the
`limit` slice — is a fresh list, the embedding being pure);
`get_message_history(None)` is the full history; and the per-priority
buckets remain exactly the priority-filtered view of the history, never
reordering or altering it. -/
theorem C7_history_order :
    (∀ (W : Type) (st : EmergencyBusState W) (m : InterAgentMessage) (w : W),
       (publish st m w).2.2 = true ∧
       (publish st m w).1.message_history = st.message_history ++ [m]) ∧
    (∀ (W : Type) (st : EmergencyBusState W) (w : W)
       (ms : List InterAgentMessage),
       (publishSeq st w ms).1.message_history = st.message_history ++ ms ∧
       (publishSeq st w ms).1.message_history.length
         = st.message_history.length + ms.length) ∧
    (∀ (W : Type) (st : EmergencyBusState W),
       get_message_history st none = st.message_history) ∧
    (∀ (W : Type) (st : EmergencyBusState W) (m : InterAgentMessage) (w : W),
       get_message_history (publish st m w).1 (some 1) = [m]) ∧
    (∀ (W : Type) (st : EmergencyBusState W) (m : InterAgentMessage) (w : W)
       (p : Priority),
       (∀ q, st.priority_queue q
          = st.message_history.filter (fun x => x.priority = q)) →
       get_priority_messages (publish st m w).1 p
         = (publish st m w).1.message_history.filter
             (fun x => x.priority = p)) := by
  refine ⟨fun W st m w => ⟨rfl, rfl⟩, fun W st w ms => ?_,
    fun W st => rfl, fun W st m w => ?_, fun W st m w p h => ?_⟩
  · constructor
    · induction ms generalizing st w with
      | nil => simp [publishSeq]
      | cons m ms ih =>
        show (publishSeq (publish st m w).1 (publish st m w).2.1 ms).1.message_history = _
        rw [ih]
        show st.message_history ++ [m] ++ ms = _
        simp
    · induction ms generalizing st w with
      | nil => simp [publishSeq]
      | cons m ms ih =>
        show (publishSeq (publish st m w).1 (publish st m w).2.1 ms).1.message_history.length = _
        rw [ih]
        show (st.message_history ++ [m]).length + ms.length = _
        simp
        omega
  · show get_message_history
      { st with
        priority_queue := fun p =>
          if p = m.priority then st.priority_queue p ++ [m]
          else st.priority_queue p
        message_history := st.message_history ++ [m] } (some 1) = [m]
    unfold get_message_history
    simp only []
    rw [if_neg (by decide : ¬ ((1 : Int) = 0))]
    exact pySliceFrom_neg_one_concat st.message_history m
  · show (if p = m.priority then st.priority_queue p ++ [m]
          else st.priority_queue p)
      = (st.message_history ++ [m]).filter (fun x => x.priority = p)
    rw [List.filter_append, h p]
    by_cases hp : p = m.priority
    · subst hp
      simp
    · have : m.priority ≠ p := fun hc => hp hc.symm
      simp [hp, this]

/-- Witness for C7: the bucket-view conjunct applied at a concrete bus
whose buckets start empty (the invariant holds trivially). -/
theorem C7_history_order_witness :
    get_priority_messages
        (publish (emptyBus (List String)) (msgTo "w7" .operator) []).1
        Priority.medium
      = (publish (emptyBus (List String))
          (msgTo "w7" .operator) []).1.message_history.filter
          (fun x => x.priority = Priority.medium) :=
  C7_history_order.2.2.2.2 (List String) (emptyBus (List String))
    (msgTo "w7" .operator) [] Priority.medium (fun _ => rfl)

/-! ### Claim C8 — situation updates reach history and the event log -/

/-- Claim C8 (confirmed).  Publishing a `situation_update` built by the
`SituationUpdate` constructor (victim_assistant → operator, priority
`HIGH`) on a bus carrying the coordination system's event listener:
`get_message_history(limit=1)` is exactly that message (so its
`message_type` is `situation_update`), and the event logger's last
entry is the one `log_message` derives from it, whose severity is
`WARNING`; the priority→severity mapping is
critical→critical, high→warning, medium→info, low→debug. -/
theorem C8_situation_update_logged
    (lg : EventLogger) (bus : EmergencyBusState EventLogger)
    (hcb : bus.event_callbacks = [log_message_event])
    (hsub : bus.subscribers AgentRole.operator = [])
    (hmax : 0 < lg.max_entries)
    (id sd : String) (vs : JVal) (hz nd : List String) :
    get_message_history
        (publish bus (create_situation_update id sd vs hz nd .high) lg).1
        (some 1)
      = [create_situation_update id sd vs hz nd .high] ∧
    (create_situation_update id sd vs hz nd .high).message_type
      = MessageType.situation_update ∧
    ((publish bus (create_situation_update id sd vs hz nd .high) lg).2.1).entries.getLast?
      = some (EventLogger.entryFor (create_situation_update id sd vs hz nd .high)) ∧
    (EventLogger.entryFor (create_situation_update id sd vs hz nd .high)).level
      = LogLevel.warning ∧
    (∀ mm : InterAgentMessage,
       EventLogger.get_log_level_for_message mm =
         match mm.priority with
         | .critical => .critical
         | .high => .warning
         | .medium => .info
         | .low => .debug) := by
  refine ⟨?_, rfl, ?_, rfl, ?_⟩
  · show get_message_history
      { bus with
        priority_queue := fun p =>
          if p = (create_situation_update id sd vs hz nd .high).priority
          then bus.priority_queue p ++ [create_situation_update id sd vs hz nd .high]
          else bus.priority_queue p
        message_history := bus.message_history
          ++ [create_situation_update id sd vs hz nd .high] } (some 1) = _
    unfold get_message_history
    simp only []
    rw [if_neg (by decide : ¬ ((1 : Int) = 0))]
    exact pySliceFrom_neg_one_concat bus.message_history _
  · show (deliver (bus.subscribers AgentRole.operator)
        (create_situation_update id sd vs hz nd .high)
        (deliver bus.event_callbacks
          (create_situation_update id sd vs hz nd .high) lg)).entries.getLast? = _
    rw [hcb, hsub]
    show (EventLogger.log_message lg
      (create_situation_update id sd vs hz nd .high)).entries.getLast? = _

    unfold EventLogger.log_message EventLogger.add_entry
    simp only []
    by_cases hlen : lg.max_entries <
      (lg.entries ++ [EventLogger.entryFor (create_situation_update id sd vs hz nd .high)]).length
    · rw [if_pos hlen]
      have h1 : 1 ≤ lg.entries.length := by
        simp at hlen
        omega
      exact getLast?_drop_concat _ _ 1 h1
    · rw [if_neg hlen]
      exact List.getLast?_concat _
  · intro mm
    cases mm with
    | mk mid ms mr mt mp mc mmd mrr mrt => cases mp <;> rfl

/-- Concrete logger and bus for the C8 witness. -/
def lgW : EventLogger := ⟨[], 1000⟩

/-- Bus with only the coordination system's event listener attached. -/
def busW8 : EmergencyBusState EventLogger :=
  add_event_listener (emptyBus EventLogger) log_message_event

/-- The concrete situation update of the C8 witness. -/
def msgW8 : InterAgentMessage :=
  create_situation_update "id8" "Severe chest pain, difficulty breathing"
    (.jobj [("conscious", .jbool true)]) [] ["medical"] .high

/-- Witness for C8 at a concrete bus, logger and message. -/
theorem C8_situation_update_logged_witness :
    get_message_history (publish busW8 msgW8 lgW).1 (some 1) = [msgW8] ∧
    ((publish busW8 msgW8 lgW).2.1).entries.getLast?
      = some (EventLogger.entryFor msgW8) ∧
    (EventLogger.entryFor msgW8).level = LogLevel.warning :=
  have h := C8_situation_update_logged lgW busW8 rfl rfl (by decide)
    "id8" "Severe chest pain, difficulty breathing"
    (.jobj [("conscious", .jbool true)]) [] ["medical"]
  ⟨h.1, h.2.2.1, h.2.2.2.1⟩

/-! ### Reasoning-loop lemmas -/

/-- A `contT` step appends a `"system"` tool-result turn and executes a
tool that was not yet in `called_tools`. -/
theorem loopStep_contT_spec (cfg : AgentCfg) (sp : String)
    (msgs : List Message) (called : List String) (m : Message)
    (et : ExecutedTool) (h : loopStep cfg sp msgs called = .contT m et) :
    m.role = "system" ∧ called.contains et.tool = false := by
  unfold loopStep at h
  cases hp : cfg.provider msgs sp with
  | error e => simp only [hp] at h; simp at h
  | ok response =>
  simp only [hp] at h
  cases hq : cfg.parseReasoningResponse response with
  | error e => simp only [hq] at h; simp at h
  | ok po =>
  simp only [hq] at h
  cases po with
  | none => simp at h
  | some parsed =>
  simp only [] at h
  cases ha : jlookup parsed "action" with
  | none => simp only [ha] at h; simp at h
  | some av =>
  simp only [ha] at h
  cases hfb : pyFalsy av with
  | true => simp [hfb] at h
  | false =>
  simp only [hfb] at h
  rw [if_neg Bool.false_ne_true] at h
  cases av with
  | jnull => simp at h
  | jbool b => simp at h
  | jnum n => simp at h
  | jarr xs => simp at h
  | jobj kvs => simp at h
  | jstr action =>
  simp only [] at h
  by_cases hn : String.mk (lowerL action.data) = "none"
  · rw [if_pos hn] at h; simp at h
  · rw [if_neg hn] at h
    cases hex : cfg.toolExecutor with
    | none => simp only [hex] at h; simp at h
    | some ex =>
    simp only [hex] at h
    cases hg : (ex.availableTools.contains action && !called.contains action) with
    | false => simp only [hg] at h; rw [if_neg Bool.false_ne_true] at h; simp at h
    | true =>
    simp only [hg, if_pos] at h
    cases hrun : ex.execute action (jlookupD parsed "actionInput" (.jobj [])) with
    | error e2 => simp only [hrun] at h; simp at h
    | ok tr =>
    simp only [hrun] at h
    injection h with h1 h2
    subst h1
    subst h2
    refine ⟨rfl, ?_⟩
    have hg2 := (Bool.and_eq_true _ _).mp hg
    have hg3 := hg2.2
    simp only [Bool.not_eq_true'] at hg3
    exact hg3

/-- When the parsed action names a tool already in `called_tools` (and
is a truthy, non-`"none"` string), the `for` body breaks. -/
theorem loopStep_done_called (cfg : AgentCfg) (sp : String)
    (msgs : List Message) (called : List String) (response : String)
    (parsed : List (String × JVal)) (a : String)
    (hp : cfg.provider msgs sp = .ok response)
    (hq : cfg.parseReasoningResponse response = .ok (some parsed))
    (ha : jlookup parsed "action" = some (.jstr a))
    (hne : a ≠ "")
    (hnone : String.mk (lowerL a.data) ≠ "none")
    (hc : called.contains a = true) :
    loopStep cfg sp msgs called = .doneB := by
  have hf : pyFalsy (.jstr a) = false := by
    simp [pyFalsy]
    exact hne
  unfold loopStep
  cases hex : cfg.toolExecutor with
  | none => simp [hp, hq, ha, hf, hnone]
  | some ex =>
    simp [hp, hq, ha, hf, hnone, hc]
    intro _ h2
    exact absurd (by simpa using hc) h2

/-- When the parsed action is a truthy, non-`"none"` string naming a
tool the executor does not offer, the `for` body breaks. -/
theorem loopStep_done_unknown (cfg : AgentCfg) (sp : String)
    (msgs : List Message) (called : List String) (response : String)
    (parsed : List (String × JVal)) (a : String) (ex : ExecModel)
    (hp : cfg.provider msgs sp = .ok response)
    (hq : cfg.parseReasoningResponse response = .ok (some parsed))
    (ha : jlookup parsed "action" = some (.jstr a))
    (hne : a ≠ "")
    (hnone : String.mk (lowerL a.data) ≠ "none")
    (hex : cfg.toolExecutor = some ex)
    (hav : ex.availableTools.contains a = false) :
    loopStep cfg sp msgs called = .doneB := by
  have hf : pyFalsy (.jstr a) = false := by
    simp [pyFalsy]
    exact hne
  unfold loopStep
  simp [hp, hq, ha, hf, hnone, hex, hav]
  intro h1
  exact absurd h1 (by simpa using hav)

/-- A `doneB` step makes `loopGo` stop with its state untouched (only
the prompt log records the model call of that iteration). -/
theorem loopGo_done_step (cfg : AgentCfg) (sp : String) (r i : Nat)
    (msgs : List Message) (executed : List ExecutedTool)
    (called : List String) (promptLog : List String)
    (h : loopStep cfg sp msgs called = .doneB) :
    loopGo cfg sp (r + 1) i msgs executed called promptLog
      = (msgs, promptLog ++ [sp], .ok ⟨executed, some i⟩) := by
  unfold loopGo
  rw [h]

/-- The prompt log grows by at most the remaining iteration count, and
only ever with the system prompt. -/
theorem loopGo_log_spec (cfg : AgentCfg) (sp : String) :
    ∀ (r i : Nat) (msgs : List Message) (executed : List ExecutedTool)
      (called : List String) (promptLog : List String),
    ∃ extra : List String,
      (loopGo cfg sp r i msgs executed called promptLog).2.1
        = promptLog ++ extra ∧
      extra.length ≤ r ∧ ∀ p ∈ extra, p = sp := by
  intro r
  induction r with
  | zero =>
    intro i msgs executed called promptLog
    exact ⟨[], by simp [loopGo], by simp, by simp⟩
  | succ r ih =>
    intro i msgs executed called promptLog
    unfold loopGo
    cases h : loopStep cfg sp msgs called with
    | raiseE e =>
      exact ⟨[sp], by simp, by simp, by simp⟩
    | doneB =>
      exact ⟨[sp], by simp, by simp, by simp⟩
    | contT m et =>
      obtain ⟨extra, h1, h2, h3⟩ := ih (i + 1) (msgs ++ [m]) (executed ++ [et])
        (called ++ [et.tool]) (promptLog ++ [sp])
      refine ⟨sp :: extra, ?_, by simp; omega, ?_⟩
      · simp only []
        rw [h1]
        simp
      · intro p hp
        rcases List.mem_cons.mp hp with h | h
        · exact h
        · exact h3 p h

/-- The loop only ever appends `"system"` tool-result turns to the
conversation. -/
theorem loopGo_msgs_spec (cfg : AgentCfg) (sp : String) :
    ∀ (r i : Nat) (msgs : List Message) (executed : List ExecutedTool)
      (called : List String) (promptLog : List String),
    ∃ extra : List Message,
      (loopGo cfg sp r i msgs executed called promptLog).1 = msgs ++ extra ∧
      ∀ m ∈ extra, m.role = "system" := by
  intro r
  induction r with
  | zero =>
    intro i msgs executed called promptLog
    exact ⟨[], by simp [loopGo], by simp⟩
  | succ r ih =>
    intro i msgs executed called promptLog
    unfold loopGo
    cases h : loopStep cfg sp msgs called with
    | raiseE e => exact ⟨[], by simp, by simp⟩
    | doneB => exact ⟨[], by simp, by simp⟩
    | contT m et =>
      obtain ⟨extra, h1, h2⟩ := ih (i + 1) (msgs ++ [m]) (executed ++ [et])
        (called ++ [et.tool]) (promptLog ++ [sp])
      refine ⟨m :: extra, ?_, ?_⟩
      · simp only []
        rw [h1]
        simp
      · intro m' hm'
        rcases List.mem_cons.mp hm' with h' | h'
        · rw [h']
          exact (loopStep_contT_spec cfg sp msgs called m et h).1
        · exact h2 m' h'

/-- Invariant: when `executed_tools` and `called_tools` track each other
and `called_tools` is duplicate-free, a completed loop reports a
duplicate-free list of executed tool names. -/
theorem loopGo_nodup_aux (cfg : AgentCfg) (sp : String) :
    ∀ (r i : Nat) (msgs : List Message) (executed : List ExecutedTool)
      (called : List String) (promptLog : List String)
      (msgs' : List Message) (log' : List String) (out : LoopOut),
    executed.map (fun et => et.tool) = called → called.Nodup →
    loopGo cfg sp r i msgs executed called promptLog
      = (msgs', log', .ok out) →
    (out.executed.map (fun et => et.tool)).Nodup := by
  intro r
  induction r with
  | zero =>
    intro i msgs executed called promptLog msgs' log' out hmap hnd h
    unfold loopGo at h
    simp only [Prod.mk.injEq, Except.ok.injEq] at h
    rw [← h.2.2]
    rw [hmap]
    exact hnd
  | succ r ih =>
    intro i msgs executed called promptLog msgs' log' out hmap hnd h
    unfold loopGo at h
    cases hs : loopStep cfg sp msgs called with
    | raiseE e =>
      rw [hs] at h
      simp at h
    | doneB =>
      rw [hs] at h
      simp only [Prod.mk.injEq, Except.ok.injEq] at h
      rw [← h.2.2]
      rw [hmap]
      exact hnd
    | contT m et =>
      rw [hs] at h
      refine ih (i + 1) (msgs ++ [m]) (executed ++ [et])
        (called ++ [et.tool]) (promptLog ++ [sp]) msgs' log' out ?_ ?_ h
      · rw [List.map_append, hmap]
        rfl
      · have hc := (loopStep_contT_spec cfg sp msgs called m et hs).2
        have hmem : et.tool ∉ called := by
          simp at hc
          exact hc
        simp [List.nodup_append, hnd, hmem]

/-! ### Claim C4 — each tool at most once per reasoning loop -/

/-- Claim C4 (confirmed).  A reasoning loop started with empty
`executed_tools`/`called_tools` never reports the same tool name twice
in `executed_tools` (each tool is executed at most once per loop), and
an iteration whose parsed action names an already-called tool stops the
loop with nothing executed, nothing appended, instead of re-executing
the tool. -/
theorem C4_tool_once (cfg : AgentCfg) (sp : String) :
    (∀ (r i : Nat) (msgs : List Message) (promptLog : List String)
       (msgs' : List Message) (log' : List String) (out : LoopOut),
       loopGo cfg sp r i msgs [] [] promptLog = (msgs', log', .ok out) →
       (out.executed.map (fun et => et.tool)).Nodup) ∧
    (∀ (r i : Nat) (msgs : List Message) (executed : List ExecutedTool)
       (called : List String) (promptLog : List String) (response : String)
       (parsed : List (String × JVal)) (a : String),
       cfg.provider msgs sp = .ok response →
       cfg.parseReasoningResponse response = .ok (some parsed) →
       jlookup parsed "action" = some (.jstr a) →
       a ≠ "" →
       String.mk (lowerL a.data) ≠ "none" →
       called.contains a = true →
       loopGo cfg sp (r + 1) i msgs executed called promptLog
         = (msgs, promptLog ++ [sp], .ok ⟨executed, some i⟩)) := by
  constructor
  · intro r i msgs promptLog msgs' log' out h
    exact loopGo_nodup_aux cfg sp r i msgs [] [] promptLog msgs' log' out rfl
      List.nodup_nil h
  · intro r i msgs executed called promptLog response parsed a hp hq ha hne
      hnone hc
    exact loopGo_done_step cfg sp r i msgs executed called promptLog
      (loopStep_done_called cfg sp msgs called response parsed a hp hq ha hne
        hnone hc)

/-- A model reply requesting tool `"t"` (used by concrete runs). -/
def actionReqT : String := "\x7b\"action\": \"t\", \"actionInput\": \x7b\x7d\x7d"

/-- A one-tool executor. -/
def execT : ExecModel := ⟨["t"], fun _ _ => .ok (.jstr "ok")⟩

/-- Agent configuration whose model requests tool `"t"` on every
reasoning round. -/
def cfgW4 : AgentCfg :=
  { provider := fun _ _ => .ok actionReqT
    shouldUseReasoningLoop := fun _ => .ok true
    buildSystemPrompt := .ok "SYS"
    parseReasoningResponse := OneMinuteAgent.parse_reasoning_response
    parseFinalResponse := OneMinuteAgent.parse_final_response
    toolExecutor := some execT
    maxIterations := 3 }

/-- Witness for C4: a concrete run in which the model requests `"t"`
every round executes it exactly once, and a request for an
already-called tool stops the loop with state untouched. -/
theorem C4_tool_once_witness :
    ((LoopOut.mk [⟨"t", .jobj [], .jstr "ok"⟩] (some 1)).executed.map
        (fun et => et.tool)).Nodup ∧
    loopGo cfgW4 "SYS" 1 7 [] [] ["t"] []
      = ([], [] ++ ["SYS"], .ok ⟨[], some 7⟩) := by
  constructor
  · exact (C4_tool_once cfgW4 "SYS").1 3 0 [] []
      [⟨"system", "Tool result: \"ok\""⟩] ["SYS", "SYS"]
      ⟨[⟨"t", .jobj [], .jstr "ok"⟩], some 1⟩ rfl
  · exact (C4_tool_once cfgW4 "SYS").2 0 7 [] [] ["t"] [] actionReqT
      [("action", .jstr "t"), ("actionInput", .jobj []),
       ("thought", .jstr "Analyzing emergency situation...")]
      "t" rfl rfl rfl (by decide) (by decide) rfl

/-! ### Claim C5 — model-call bounds and the single finalization call -/

/-- Claim C5 (confirmed).  For every model-provider behaviour, the
reasoning loop issues at most `max_iterations` reasoning-round model
calls (each with the system prompt), and `_reasoning_loop` then issues
exactly one finalization call (with the `FINAL ANSWER MODE` prompt)
whenever the loop part completes without an exception — also when zero
tools were executed; if the loop part raises, no finalization call is
made. -/
theorem C5_call_bounds (cfg : AgentCfg) (msgs : List Message) (sp : String)
    (hsp : cfg.buildSystemPrompt = .ok sp) :
    ((loopGo cfg sp cfg.maxIterations 0 msgs [] [] []).2.1).length
        ≤ cfg.maxIterations ∧
    (∀ p ∈ (loopGo cfg sp cfg.maxIterations 0 msgs [] [] []).2.1, p = sp) ∧
    (reasoningLoop cfg msgs).2.1
      = (loopGo cfg sp cfg.maxIterations 0 msgs [] [] []).2.1
        ++ (match (loopGo cfg sp cfg.maxIterations 0 msgs [] [] []).2.2 with
            | .ok _ => [finalPrompt]
            | .error _ => []) := by
  obtain ⟨extra, h1, h2, h3⟩ :=
    loopGo_log_spec cfg sp cfg.maxIterations 0 msgs [] [] []
  rw [List.nil_append] at h1
  refine ⟨by rw [h1]; exact h2, by rw [h1]; exact h3, ?_⟩
  unfold reasoningLoop
  rw [hsp]
  simp only []
  rcases hL : loopGo cfg sp cfg.maxIterations 0 msgs [] [] [] with
    ⟨msgs2, log2, r2⟩
  cases r2 with
  | error e => simp
  | ok out =>
    cases hpf : cfg.provider msgs2 finalPrompt with
    | error e => simp [hpf]
    | ok response =>
      cases hff : cfg.parseFinalResponse response with
      | error e => simp [hpf, hff]
      | ok fa =>
        cases hli : out.lastIter with
        | none => simp [hpf, hff, hli]
        | some it => simp [hpf, hff, hli]

/-- A model reply declaring no action. -/
def noneReq : String := "\x7b\"action\": \"None\"\x7d"

/-- A final-answer reply. -/
def ansJson : String := "\x7b\"answer\": \"done\"\x7d"

/-- Agent configuration that stops reasoning immediately (zero tool
calls) and answers on the finalization prompt. -/
def cfgW5 : AgentCfg :=
  { provider := fun _ p => .ok (if p = finalPrompt then ansJson else noneReq)
    shouldUseReasoningLoop := fun _ => .ok true
    buildSystemPrompt := .ok "SYS"
    parseReasoningResponse := OneMinuteAgent.parse_reasoning_response
    parseFinalResponse := OneMinuteAgent.parse_final_response
    toolExecutor := some execT
    maxIterations := 2 }

/-- Witness for C5 at a concrete configuration whose loop executes zero
tools and still issues exactly one finalization call. -/
theorem C5_call_bounds_witness :
    ((loopGo cfgW5 "SYS" cfgW5.maxIterations 0 [] [] [] []).2.1).length
        ≤ cfgW5.maxIterations ∧
    (∀ p ∈ (loopGo cfgW5 "SYS" cfgW5.maxIterations 0 [] [] [] []).2.1,
       p = "SYS") ∧
    (reasoningLoop cfgW5 []).2.1
      = (loopGo cfgW5 "SYS" cfgW5.maxIterations 0 [] [] [] []).2.1
        ++ (match (loopGo cfgW5 "SYS" cfgW5.maxIterations 0 [] [] [] []).2.2 with
            | .ok _ => [finalPrompt]
            | .error _ => []) :=
  C5_call_bounds cfgW5 [] "SYS" rfl

/-! ### Claim C1 — chat error handling and rollback -/

/-- `_reasoning_loop` only appends `"system"` tool-result turns and one
final `"assistant"` turn. -/
theorem reasoningLoop_msgs_spec (cfg : AgentCfg) (msgs : List Message) :
    ∃ extra : List Message,
      (reasoningLoop cfg msgs).1 = msgs ++ extra ∧
      ∀ m ∈ extra, m.role = "system" ∨ m.role = "assistant" := by
  unfold reasoningLoop
  cases hsp : cfg.buildSystemPrompt with
  | error e => exact ⟨[], by simp, by simp⟩
  | ok sp =>
    simp only []
    obtain ⟨extra, h1, h2⟩ :=
      loopGo_msgs_spec cfg sp cfg.maxIterations 0 msgs [] [] []
    rcases hL : loopGo cfg sp cfg.maxIterations 0 msgs [] [] [] with
      ⟨msgs2, log2, r2⟩
    rw [hL] at h1
    simp only [] at h1
    subst h1
    cases r2 with
    | error e =>
      exact ⟨extra, by simp, fun m hm => .inl (h2 m hm)⟩
    | ok out =>
      cases hpf : cfg.provider (msgs ++ extra) finalPrompt with
      | error e =>
        exact ⟨extra, by simp [hpf], fun m hm => .inl (h2 m hm)⟩
      | ok response =>
        cases hff : cfg.parseFinalResponse response with
        | error e =>
          exact ⟨extra, by simp [hpf, hff], fun m hm => .inl (h2 m hm)⟩
        | ok fa =>
          refine ⟨extra ++ [⟨"assistant", fa⟩], ?_, ?_⟩
          · cases hli : out.lastIter with
            | none => simp [hpf, hff, hli]
            | some it => simp [hpf, hff, hli]
          · intro m hm
            rcases List.mem_append.mp hm with hm' | hm'
            · exact .inl (h2 m hm')
            · rcases List.mem_singleton.mp hm' with rfl
              exact .inr rfl

/-- `_simple_response` appends at most one `"assistant"` turn. -/
theorem simpleResponse_msgs_spec (cfg : AgentCfg) (msgs : List Message) :
    ∃ extra : List Message,
      (simpleResponse cfg msgs).1 = msgs ++ extra ∧
      ∀ m ∈ extra, m.role = "system" ∨ m.role = "assistant" := by
  unfold simpleResponse
  cases hsp : cfg.buildSystemPrompt with
  | error e => exact ⟨[], by simp, by simp⟩
  | ok sp =>
    simp only []
    cases hpf : cfg.provider msgs sp with
    | error e => exact ⟨[], by simp, by simp⟩
    | ok response =>
      cases hff : cfg.parseFinalResponse response with
      | error e => exact ⟨[], by simp [hff], by simp⟩
      | ok fa =>
        refine ⟨[⟨"assistant", fa⟩], by simp [hff], ?_⟩
        intro m hm
        rcases List.mem_singleton.mp hm with rfl
        exact .inr rfl

/-- The body of `chat`'s `try:` block first appends the user turn and
afterwards only `"system"`/`"assistant"` turns. -/
theorem chatBody_msgs_spec (cfg : AgentCfg) (msgs : List Message)
    (u : String) :
    ∃ extra : List Message,
      (chatBody cfg msgs u).1 = (msgs ++ [⟨"user", u⟩]) ++ extra ∧
      ∀ m ∈ extra, m.role = "system" ∨ m.role = "assistant" := by
  unfold chatBody
  cases hs : cfg.shouldUseReasoningLoop u with
  | error e => exact ⟨[], by simp [hs], by simp⟩
  | ok b =>
    cases b with
    | true =>
      obtain ⟨extra, ha, hb⟩ :=
        reasoningLoop_msgs_spec cfg (msgs ++ [⟨"user", u⟩])
      refine ⟨extra, ?_, hb⟩
      simp only [hs]
      exact ha
    | false =>
      obtain ⟨extra, ha, hb⟩ :=
        simpleResponse_msgs_spec cfg (msgs ++ [⟨"user", u⟩])
      refine ⟨extra, ?_, hb⟩
      simp only [hs]
      exact ha

/-- Claim C1 (corrected).  When the body of `chat(u)` raises after the
user turn was appended, `chat` still returns — never raises — the
generic failure `AgentResponse` with the error text in its metadata;
but the user turn is rolled back exactly when it is still the last
history entry at failure time: if the failure left the history at just
`msgs + [user u]`, the history reverts to `msgs`, while if any
tool-result (or assistant) turn was appended after the user turn, the
pop-if-user guard does not fire and the user turn remains in the
history. -/
theorem C1_rollback_amended (cfg : AgentCfg) (msgs : List Message)
    (u : String) (e : String) (msgs' : List Message) (log : List String)
    (h : chatBody cfg msgs u = (msgs', log, .error e)) :
    (chat cfg msgs u).2.2
      = ⟨"I encountered an error processing your request. Please try again.",
         [], [("error", .jstr e)]⟩ ∧
    (msgs' = msgs ++ [⟨"user", u⟩] → (chat cfg msgs u).1 = msgs) ∧
    (msgs' ≠ msgs ++ [⟨"user", u⟩] →
      (chat cfg msgs u).1 = msgs' ∧ (⟨"user", u⟩ : Message) ∈ msgs') := by
  obtain ⟨extra, h1, h2⟩ := chatBody_msgs_spec cfg msgs u
  rw [h] at h1
  simp only [] at h1
  unfold chat
  rw [h]
  simp only []
  refine ⟨by trivial, ?_, ?_⟩
  · intro heq
    rw [heq, List.getLast?_concat]
    simp
  · intro hne
    have hextra : extra ≠ [] := by
      intro h0
      rw [h0, List.append_nil] at h1
      exact hne h1
    have hlast : msgs'.getLast? = some (extra.getLast hextra) := by
      rw [h1, List.getLast?_append, List.getLast?_eq_getLast extra hextra]
      rfl
    rw [hlast]
    simp only []
    have hrole := h2 (extra.getLast hextra) (List.getLast_mem hextra)
    have hnotuser : ¬ (extra.getLast hextra).role = "user" := by
      rcases hrole with h' | h' <;> rw [h'] <;> decide
    rw [if_neg hnotuser]
    refine ⟨rfl, ?_⟩
    rw [h1]
    exact List.mem_append.mpr (.inl (List.mem_append.mpr (.inr (List.mem_singleton.mpr rfl))))

/-- Agent whose model raises on the first reasoning call: the user turn
is still last, so rollback fires. -/
def cfgW1 : AgentCfg :=
  { provider := fun _ _ => .error "model unavailable"
    shouldUseReasoningLoop := fun _ => .ok true
    buildSystemPrompt := .ok "SYS"
    parseReasoningResponse := OneMinuteAgent.parse_reasoning_response
    parseFinalResponse := OneMinuteAgent.parse_final_response
    toolExecutor := some execT
    maxIterations := 2 }

/-- Witness for C1: the failure response carries the error and the user
turn is rolled back when nothing was appended after it. -/
theorem C1_rollback_amended_witness :
    (chat cfgW1 [] "hi").2.2
      = ⟨"I encountered an error processing your request. Please try again.",
         [], [("error", .jstr "model unavailable")]⟩ ∧
    (chat cfgW1 [] "hi").1 = [] := by
  have h := C1_rollback_amended cfgW1 [] "hi" "model unavailable"
    ([] ++ [⟨"user", "hi"⟩]) ["SYS"] rfl
  exact ⟨h.1, h.2.1 rfl⟩

/-- Agent whose model first requests tool `"t"` and then raises: a
tool-result turn sits after the user turn when the exception hits. -/
def cfgC1 : AgentCfg :=
  { provider := fun ms _ =>
      if ms.length ≤ 1 then .ok actionReqT else .error "boom"
    shouldUseReasoningLoop := fun _ => .ok true
    buildSystemPrompt := .ok "SYS"
    parseReasoningResponse := OneMinuteAgent.parse_reasoning_response
    parseFinalResponse := OneMinuteAgent.parse_final_response
    toolExecutor := some execT
    maxIterations := 2 }

/-- Counterexample for C1 as stated: the body raises internally after
the user turn was appended (and a tool-result turn after it), yet the
post-call history still contains the turn with content `"hello"` — the
rollback guard pops only a trailing `"user"` message. -/
theorem C1_counterexample :
    (chatBody cfgC1 [] "hello").2.2 = .error "boom" ∧
    (chat cfgC1 [] "hello").2.2.content
      = "I encountered an error processing your request. Please try again." ∧
    (⟨"user", "hello"⟩ : Message) ∈ (chat cfgC1 [] "hello").1 := by
  refine ⟨rfl, rfl, ?_⟩
  have h : (chat cfgC1 [] "hello").1
      = [⟨"user", "hello"⟩, ⟨"system", "Tool result: \"ok\""⟩] := rfl
  rw [h]
  exact List.mem_cons_self _ _

/-! ### Claim C3 — unknown tool names -/

/-- Claim C3 (corrected).  `ToolExecutor.execute` does return exactly
the envelope `{"status": "error", "message": "Tool '<x>' not found"}`
for an unregistered name — but the base agent's reasoning loop never
invokes the executor for an action outside `get_available_tools()`: it
breaks immediately, recording no execution and appending no turn to the
history, so no error-envelope turn is fed back to the model. -/
theorem C3_unknown_tool_amended (cfg : AgentCfg) (sp : String) :
    (∀ (tools : List ToolDefinition) (x : String) (args : JVal),
       findTool tools x = none →
       ToolExecutor.execute tools x args
         = .jobj [("status", .jstr "error"),
                  ("message", .jstr ("Tool '" ++ x ++ "' not found"))]) ∧
    (∀ (r i : Nat) (msgs : List Message) (executed : List ExecutedTool)
       (called : List String) (promptLog : List String) (response : String)
       (parsed : List (String × JVal)) (a : String) (ex : ExecModel),
       cfg.provider msgs sp = .ok response →
       cfg.parseReasoningResponse response = .ok (some parsed) →
       jlookup parsed "action" = some (.jstr a) →
       a ≠ "" →
       String.mk (lowerL a.data) ≠ "none" →
       cfg.toolExecutor = some ex →
       ex.availableTools.contains a = false →
       loopGo cfg sp (r + 1) i msgs executed called promptLog
         = (msgs, promptLog ++ [sp], .ok ⟨executed, some i⟩)) := by
  constructor
  · intro tools x args hnone
    unfold ToolExecutor.execute
    rw [hnone]
  · intro r i msgs executed called promptLog response parsed a ex hp hq ha hne
      hnone hex hav
    exact loopGo_done_step cfg sp r i msgs executed called promptLog
      (loopStep_done_unknown cfg sp msgs called response parsed a ex hp hq ha
        hne hnone hex hav)

/-- A model reply naming the unregistered tool `"ghost"`. -/
def ghostReq : String := "\x7b\"action\": \"ghost\", \"actionInput\": \x7b\x7d\x7d"

/-- An executor offering only `"real_tool"`. -/
def execReal : ExecModel := ⟨["real_tool"], fun _ _ => .ok (.jstr "ok")⟩

/-- Agent whose model asks for the unknown tool `"ghost"` and answers
`"done"` on finalization. -/
def cfgC3 : AgentCfg :=
  { provider := fun _ p => .ok (if p = finalPrompt then ansJson else ghostReq)
    shouldUseReasoningLoop := fun _ => .ok true
    buildSystemPrompt := .ok "SYS"
    parseReasoningResponse := OneMinuteAgent.parse_reasoning_response
    parseFinalResponse := OneMinuteAgent.parse_final_response
    toolExecutor := some execReal
    maxIterations := 2 }

/-- Counterexample for C3 as stated: with the model requesting `ghost`,
the loop stops after one round having executed nothing, and no turn of
the resulting history contains the `"not found"` error envelope — the
executor was never consulted. -/
theorem C3_counterexample :
    (reasoningLoop cfgC3 [⟨"user", "hi"⟩]).1
      = [⟨"user", "hi"⟩, ⟨"assistant", "done"⟩] ∧
    (reasoningLoop cfgC3 [⟨"user", "hi"⟩]).2.2
      = .ok ⟨"done", [], [("thinking_iterations", .jnum 1),
                          ("tools_used", .jnum 0)]⟩ ∧
    ((reasoningLoop cfgC3 [⟨"user", "hi"⟩]).1.all
      (fun m => !containsL m.content.data ("not found".data))) = true :=
  ⟨rfl, rfl, rfl⟩

/-- Witness for C3's amended claim: the concrete not-found envelope, and
a concrete loop step that stops on the unknown tool without touching
history or executions. -/
theorem C3_unknown_tool_amended_witness :
    ToolExecutor.execute [] "ghost" (.jobj [("q", .jstr "x")])
      = .jobj [("status", .jstr "error"),
               ("message", .jstr "Tool 'ghost' not found")] ∧
    loopGo cfgC3 "SYS" (1 + 1) 0 [⟨"user", "hi"⟩] [] [] []
      = ([⟨"user", "hi"⟩], [] ++ ["SYS"], .ok ⟨[], some 0⟩) := by
  constructor
  · exact (C3_unknown_tool_amended cfgC3 "SYS").1 [] "ghost"
      (.jobj [("q", .jstr "x")]) rfl
  · exact (C3_unknown_tool_amended cfgC3 "SYS").2 1 0 [⟨"user", "hi"⟩] [] []
      [] ghostReq
      [("action", .jstr "ghost"), ("actionInput", .jobj []),
       ("thought", .jstr "Analyzing emergency situation...")]
      "ghost" execReal rfl rfl rfl (by decide) (by decide) rfl rfl

/-! ### Character and substring lemmas for the parsing claims -/

/-- ASCII lowering is idempotent. -/
theorem toLower_toLower (c : Char) : c.toLower.toLower = c.toLower := by
  have hdef : ∀ d : Char, Char.toLower d
      = (if 65 ≤ d.toNat ∧ d.toNat ≤ 90 then Char.ofNat (d.toNat + 32) else d) :=
    fun _ => rfl
  by_cases h : 65 ≤ c.toNat ∧ c.toNat ≤ 90
  · have hval : (Char.ofNat (c.toNat + 32)).toNat = c.toNat + 32 := by
      have hvalid : (c.toNat + 32).isValidChar := Or.inl (by omega)
      unfold Char.ofNat
      rw [dif_pos hvalid]
      rfl
    conv_lhs => rw [hdef c, if_pos h]
    rw [hdef (Char.ofNat (c.toNat + 32))]
    rw [if_neg (by rw [hval]; omega)]
    rw [hdef c, if_pos h]
  · conv_lhs => rw [hdef c, if_neg h]

/-- Every character of a lowered string is fixed by lowering. -/
theorem mem_lowerL_toLower (l : List Char) (c : Char) (h : c ∈ lowerL l) :
    c.toLower = c := by
  unfold lowerL at h
  rcases List.mem_map.mp h with ⟨d, _, rfl⟩
  exact toLower_toLower d

/-- A string all of whose characters are lowering-fixed is its own
lowering. -/
theorem lowerL_eq_self_of (l : List Char) (h : ∀ c ∈ l, c.toLower = c) :
    lowerL l = l := by
  unfold lowerL
  induction l with
  | nil => rfl
  | cons c t ih =>
    rw [List.map_cons, h c (List.mem_cons_self c t)]
    rw [ih (fun d hd => h d (List.mem_cons_of_mem c hd))]

/-- `dropTrailingWhile` keeps a subset of the characters. -/
theorem dropTrailingWhile_subset (p : Char → Bool) (l : List Char) :
    dropTrailingWhile p l ⊆ l := by
  intro a ha
  unfold dropTrailingWhile at ha
  rw [List.mem_reverse] at ha
  exact List.mem_reverse.mp ((List.dropWhile_sublist _).subset ha)

/-- `strip()` keeps a subset of the characters. -/
theorem stripL_subset (l : List Char) : stripL l ⊆ l := by
  intro a ha
  unfold stripL at ha
  exact (List.dropWhile_sublist _).subset (dropTrailingWhile_subset _ _ ha)

/-- `s[1:-1]` keeps a subset of the characters. -/
theorem dropEndsL_subset (l : List Char) : dropEndsL l ⊆ l := by
  intro a ha
  unfold dropEndsL at ha
  exact List.drop_subset _ _ ((List.dropLast_sublist _).subset ha)

/-- The remainder after the first occurrence is a subset of the
haystack. -/
theorem splitAfterFirst_subset (sub : List Char) :
    ∀ (hay v : List Char), splitAfterFirst hay sub = some v → v ⊆ hay := by
  intro hay
  induction hay with
  | nil =>
    intro v h
    unfold splitAfterFirst at h
    split at h
    · injection h with h1
      rw [← h1]
      exact List.drop_subset _ _
    · simp at h
  | cons c t ih =>
    intro v h
    unfold splitAfterFirst at h
    split at h
    · injection h with h1
      rw [← h1]
      exact List.drop_subset _ _
    · simp only [] at h
      exact fun a ha => List.mem_cons_of_mem c (ih v h ha)

/-- Every character the line extractor returns comes from the lowered
line. -/
theorem extract_value_mem (line key : List Char) :
    ∀ c ∈ OneMinuteAgent.extract_value_from_line line key, c ∈ lowerL line := by
  intro c hc
  unfold OneMinuteAgent.extract_value_from_line at hc
  simp only [] at hc
  split at hc
  · simp at hc
  · rename_i v0 heq
    have hv0 : v0 ⊆ lowerL line := by
      split at heq
      · exact splitAfterFirst_subset _ _ _ heq
      · split at heq
        · exact splitAfterFirst_subset _ _ _ heq
        · cases heq
    have hv1 : dropTrailingWhile (fun c => c = ',') (stripL v0) ⊆ v0 :=
      fun a ha => stripL_subset v0 (dropTrailingWhile_subset _ _ ha)
    split at hc
    · exact hv0 (hv1 (dropEndsL_subset _ hc))
    · split at hc
      · exact hv0 (hv1 (dropEndsL_subset _ hc))
      · exact hv0 (hv1 hc)

/-! ### Claim C10 — the fallback extractor lowercases values -/

/-- Claim C10 (confirmed).  The heuristic fallback extractor returns
fully lower-cased values for every line and key (it splits
`line.lower()`, not `line`), so a malformed reply
`thought: "Call Now"` parses to thought `"call now"`, while the strict
JSON path preserves case (`{"thought": "Call Now"}` keeps
`"Call Now"`). -/
theorem C10_lowercase_fallback :
    (∀ line key : List Char,
       lowerL (OneMinuteAgent.extract_value_from_line line key)
         = OneMinuteAgent.extract_value_from_line line key) ∧
    OneMinuteAgent.parse_reasoning_response "thought: \"Call Now\""
      = .ok (some [("thought", .jstr "call now"), ("action", .jstr "None"),
                   ("actionInput", .jobj [])]) ∧
    OneMinuteAgent.parse_reasoning_response "\x7b\"thought\": \"Call Now\"\x7d"
      = .ok (some [("thought", .jstr "Call Now"), ("action", .jstr "None"),
                   ("actionInput", .jobj [])]) := by
  refine ⟨fun line key => ?_, rfl, rfl⟩
  apply lowerL_eq_self_of
  intro c hc
  exact mem_lowerL_toLower line c (extract_value_mem line key c hc)

/-! ### Claim C9 — malformed replies with a single thought line -/

/-- A reply line of the shape `thought: "<x>"`. -/
def thoughtLine (x : List Char) : List Char :=
  "thought: \"".data ++ x ++ ['"']

/-- A line that triggers none of the fallback extractor's markers. -/
def lineMarkerFree (ℓ : List Char) : Prop :=
  containsL (lowerL (stripL ℓ)) ("thought:".data) = false ∧
  containsL (lowerL (stripL ℓ)) ("\"thought\":".data) = false ∧
  containsL (lowerL (stripL ℓ)) ("action:".data) = false ∧
  containsL (lowerL (stripL ℓ)) ("\"action\":".data) = false ∧
  containsL (lowerL (stripL ℓ)) ("actioninput:".data) = false ∧
  containsL (lowerL (stripL ℓ)) ("\"actioninput\":".data) = false

instance (ℓ : List Char) : Decidable (lineMarkerFree ℓ) := by
  unfold lineMarkerFree
  infer_instance

/-- Lowering commutes with the `thought: "…"` shape. -/
theorem lowerL_thoughtLine (x : List Char) :
    lowerL (thoughtLine x) = thoughtLine (lowerL x) := by
  unfold thoughtLine lowerL
  rw [List.map_append, List.map_append]
  rfl

/-- A `thought: "…"` line decomposed at its marker. -/
theorem thoughtLine_decomp (y : List Char) :
    thoughtLine y = "thought:".data ++ ((' ' :: '"' :: y) ++ ['"']) := by
  unfold thoughtLine
  rw [List.append_assoc]
  rfl

/-- A list starts with its own prefix. -/
theorem startsWithL_append_left : ∀ (l t : List Char),
    startsWithL (l ++ t) l = true := by
  intro l
  induction l with
  | nil =>
    intro t
    rw [List.nil_append]
    cases t <;> rfl
  | cons c cs ih =>
    intro t
    show startsWithL (c :: (cs ++ t)) (c :: cs) = true
    unfold startsWithL
    simp [ih t]

/-- A prefix occurrence is an occurrence. -/
theorem containsL_of_startsWithL (hay sub : List Char)
    (h : startsWithL hay sub = true) : containsL hay sub = true := by
  rw [containsL.eq_def]
  rw [if_pos h]

/-- `split(sub, 1)[1]` at a prefix occurrence drops exactly the
prefix. -/
theorem splitAfterFirst_of_startsWith (hay sub : List Char)
    (h : startsWithL hay sub = true) :
    splitAfterFirst hay sub = some (hay.drop sub.length) := by
  rw [splitAfterFirst.eq_def]
  simp only []
  rw [if_pos h]

/-- Nothing is stripped from the right when the last character does not
match. -/
theorem dropTrailingWhile_concat (p : Char → Bool) (c : Char)
    (l : List Char) (h : p c = false) :
    dropTrailingWhile p (l ++ [c]) = l ++ [c] := by
  unfold dropTrailingWhile
  simp [List.dropWhile_cons, h]

/-- The extractor on a `thought: "<x>"` line yields the lower-cased
`x` (quotes peeled), provided the lowered line does not contain the
quoted-key variant `"thought":`. -/
theorem extract_thoughtLine (x : List Char)
    (hxq : containsL (thoughtLine (lowerL x)) ("\"thought\":".data) = false) :
    OneMinuteAgent.extract_value_from_line (thoughtLine x) ("thought".data)
      = lowerL x := by
  have hsw : startsWithL (thoughtLine (lowerL x)) ("thought:".data) = true := by
    rw [thoughtLine_decomp]
    exact startsWithL_append_left _ _
  unfold OneMinuteAgent.extract_value_from_line
  simp only []
  rw [lowerL_thoughtLine]
  rw [show ('"' :: ("thought".data ++ ['"', ':'])) = "\"thought\":".data
      from rfl]
  rw [show (("thought".data ++ [':']) : List Char) = "thought:".data from rfl]
  rw [if_neg (by rw [hxq]; simp)]
  rw [if_pos (containsL_of_startsWithL _ _ hsw)]
  rw [splitAfterFirst_of_startsWith _ _ hsw]
  simp only []
  have hdrop : (thoughtLine (lowerL x)).drop ("thought:".data : List Char).length
      = ' ' :: '"' :: (lowerL x ++ ['"']) := by
    rw [thoughtLine_decomp]
    rw [List.drop_left]
    simp
  rw [hdrop]
  have hstrip : stripL (' ' :: '"' :: (lowerL x ++ ['"']))
      = ('"' :: lowerL x) ++ ['"'] := by
    unfold stripL
    rw [List.dropWhile_cons]
    rw [if_pos (by decide : pySpace ' ' = true)]
    rw [List.dropWhile_cons]
    rw [if_neg (by decide : ¬ pySpace '"' = true)]
    rw [show ('"' :: (lowerL x ++ ['"'])) = (('"' :: lowerL x) ++ ['"'] : List Char)
        from by simp]
    exact dropTrailingWhile_concat pySpace '"' _ (by decide)
  rw [hstrip]
  rw [dropTrailingWhile_concat (fun c => c = ',') '"' _ (by decide)]
  have hh : ((('"' :: lowerL x) ++ ['"']) : List Char).head? = some '"' := by
    simp
  have hg : ((('"' :: lowerL x) ++ ['"']) : List Char).getLast? = some '"' :=
    List.getLast?_concat _
  rw [if_pos (by rw [hh, hg]; rfl)]
  unfold dropEndsL
  rw [show ((('"' :: lowerL x) ++ ['"']) : List Char)
      = '"' :: (lowerL x ++ ['"']) from by simp]
  rw [List.drop_one]
  simp only [List.tail_cons]
  exact List.dropLast_concat

/-- A marker-free line leaves the fallback accumulator untouched. -/
theorem mrStep_free (acc : OneMinuteAgent.MRAcc) (ℓ : List Char)
    (h : lineMarkerFree ℓ) : OneMinuteAgent.mrStep acc ℓ = acc := by
  obtain ⟨h1, h2, h3, h4, h5, h6⟩ := h
  unfold OneMinuteAgent.mrStep
  simp only []
  rw [h1, h2, h3, h4, h5, h6]
  simp

/-- A `thought: "<x>"` line sets the accumulator's `thought` to the
lower-cased `x`. -/
theorem mrStep_thought (acc : OneMinuteAgent.MRAcc) (x ℓ : List Char)
    (hl : stripL ℓ = thoughtLine x)
    (hxq : containsL (thoughtLine (lowerL x)) ("\"thought\":".data) = false) :
    OneMinuteAgent.mrStep acc ℓ = { acc with thought := lowerL x } := by
  have hsw : startsWithL (thoughtLine (lowerL x)) ("thought:".data) = true := by
    rw [thoughtLine_decomp]
    exact startsWithL_append_left _ _
  unfold OneMinuteAgent.mrStep
  simp only []
  rw [hl, lowerL_thoughtLine]
  rw [if_pos (by rw [containsL_of_startsWithL _ _ hsw]; simp)]
  rw [extract_thoughtLine x hxq]

/-- Folding the fallback over marker-free lines is the identity. -/
theorem mrFold_free :
    ∀ (lines : List (List Char)) (acc : OneMinuteAgent.MRAcc),
    (∀ ℓ ∈ lines, lineMarkerFree ℓ) →
    lines.foldl OneMinuteAgent.mrStep acc = acc := by
  intro lines
  induction lines with
  | nil => intro acc _; rfl
  | cons ℓ rest ih =>
    intro acc hall
    rw [List.foldl_cons, mrStep_free acc ℓ (hall ℓ (List.mem_cons_self _ _))]
    exact ih acc (fun ℓ' h' => hall ℓ' (List.mem_cons_of_mem _ h'))

/-- Folding the fallback over lines that are all marker-free except for
(at least one) `thought: "<x>"` line yields exactly a lower-cased
thought and untouched action/actionInput. -/
theorem mrFold_main (x : List Char)
    (hxq : containsL (thoughtLine (lowerL x)) ("\"thought\":".data) = false) :
    ∀ (lines : List (List Char)) (acc : OneMinuteAgent.MRAcc),
    (∀ ℓ ∈ lines, lineMarkerFree ℓ ∨ stripL ℓ = thoughtLine x) →
    (∃ ℓ ∈ lines, stripL ℓ = thoughtLine x) →
    lines.foldl OneMinuteAgent.mrStep acc
      = { thought := lowerL x, action := acc.action,
          actionInput := acc.actionInput } := by
  intro lines
  induction lines with
  | nil =>
    intro acc _ hex
    rcases hex with ⟨ℓ, hmem, _⟩
    exact absurd hmem (List.not_mem_nil _)
  | cons ℓ rest ih =>
    intro acc hall hex
    by_cases hth : stripL ℓ = thoughtLine x
    · rw [List.foldl_cons, mrStep_thought acc x ℓ hth hxq]
      by_cases hex2 : ∃ ℓ' ∈ rest, stripL ℓ' = thoughtLine x
      · exact ih _ (fun ℓ' h' => hall ℓ' (List.mem_cons_of_mem _ h')) hex2
      · have hallfree : ∀ ℓ' ∈ rest, lineMarkerFree ℓ' := by
          intro ℓ' h'
          rcases hall ℓ' (List.mem_cons_of_mem _ h') with hf | ht
          · exact hf
          · exact absurd ⟨ℓ', h', ht⟩ hex2
        rw [mrFold_free rest _ hallfree]
    · have hfree : lineMarkerFree ℓ := by
        rcases hall ℓ (List.mem_cons_self _ _) with hf | ht
        · exact hf
        · exact absurd ht hth
      rw [List.foldl_cons, mrStep_free acc ℓ hfree]
      apply ih acc (fun ℓ' h' => hall ℓ' (List.mem_cons_of_mem _ h'))
      rcases hex with ⟨ℓ', hmem, ht'⟩
      rcases List.mem_cons.mp hmem with heq | h'
      · exact absurd (heq ▸ ht') hth
      · exact ⟨ℓ', h', ht'⟩

/-- The result dict of the fallback on a single-thought reply. -/
def thoughtDict (x : List Char) : List (String × JVal) :=
  [("thought", .jstr (String.mk (lowerL x))),
   ("action", .jstr "None"),
   ("actionInput", .jobj [])]

/-- Claim C9 (corrected).  For every model reply that is not JSON and
whose lines are marker-free except for (at least one) line
`thought: "x"` — and no action line — `parse_reasoning_response`
returns a parsed dict whose `thought` is the **lower-cased** `x` (equal
to `x` whenever `x` has no uppercase letters; the fallback splits
`line.lower()`) and whose `action` is the literal `"None"`; feeding such
a reply to the reasoning loop makes the iteration break — the loop
proceeds to the finalization call instead of treating the reply as
fatal. -/
theorem C9_malformed_thought_amended (response : String) (x : List Char)
    (hx : lowerL x ≠ [])
    (hjson : jsonLoads (stripL response.data) = none)
    (hxq : containsL (thoughtLine (lowerL x)) ("\"thought\":".data) = false)
    (hall : ∀ ℓ ∈ splitLinesL (stripL response.data),
       lineMarkerFree ℓ ∨ stripL ℓ = thoughtLine x)
    (hex : ∃ ℓ ∈ splitLinesL (stripL response.data),
       stripL ℓ = thoughtLine x) :
    OneMinuteAgent.parse_reasoning_response response
      = .ok (some (thoughtDict x)) ∧
    (∀ (cfg : AgentCfg) (sp : String) (r i : Nat) (msgs : List Message)
       (executed : List ExecutedTool) (called : List String)
       (promptLog : List String),
       cfg.parseReasoningResponse = OneMinuteAgent.parse_reasoning_response →
       cfg.provider msgs sp = .ok response →
       loopGo cfg sp (r + 1) i msgs executed called promptLog
         = (msgs, promptLog ++ [sp], .ok ⟨executed, some i⟩)) := by
  have hparse : OneMinuteAgent.parse_reasoning_response response
      = .ok (some (thoughtDict x)) := by
    unfold OneMinuteAgent.parse_reasoning_response
    rw [hjson]
    simp only []
    unfold OneMinuteAgent.parse_malformed_reasoning
    simp only []
    rw [mrFold_main x hxq (splitLinesL (stripL response.data))
      ⟨[], "None".data, .jobj []⟩ hall hex]
    rw [if_pos (Or.inl hx)]
    rfl
  refine ⟨hparse, ?_⟩
  intro cfg sp r i msgs executed called promptLog hcfg hprov
  have hq : cfg.parseReasoningResponse response
      = .ok (some (thoughtDict x)) := by
    rw [hcfg]
    exact hparse
  have hstep : loopStep cfg sp msgs called = .doneB := by
    unfold loopStep
    rw [hprov]
    simp only []
    rw [hq]
    rfl
  exact loopGo_done_step cfg sp r i msgs executed called promptLog hstep

/-- Counterexample for C9 as stated: the fallback extractor lowercases,
so the reply line `thought: "Call Now"` parses to thought
`"call now"`, not `"Call Now"`. -/
theorem C9_counterexample :
    OneMinuteAgent.parse_reasoning_response "thought: \"Call Now\""
      = .ok (some [("thought", .jstr "call now"), ("action", .jstr "None"),
                   ("actionInput", .jobj [])]) ∧
    ("call now" : String) ≠ "Call Now" :=
  ⟨rfl, by decide⟩

/-- Agent whose model always replies with a malformed single-thought
message. -/
def cfgW9 : AgentCfg :=
  { provider := fun _ _ => .ok "Okay.\nthought: \"the person fell\""
    shouldUseReasoningLoop := fun _ => .ok true
    buildSystemPrompt := .ok "SYS"
    parseReasoningResponse := OneMinuteAgent.parse_reasoning_response
    parseFinalResponse := OneMinuteAgent.parse_final_response
    toolExecutor := some execT
    maxIterations := 2 }

/-- Witness for C9 at a concrete malformed reply (already lowercase, so
the thought survives verbatim) and a concrete loop step that breaks. -/
theorem C9_malformed_thought_amended_witness :
    OneMinuteAgent.parse_reasoning_response "Okay.\nthought: \"the person fell\""
      = .ok (some [("thought", .jstr "the person fell"),
                   ("action", .jstr "None"),
                   ("actionInput", .jobj [])]) ∧
    loopGo cfgW9 "SYS" (0 + 1) 4 [] [] [] []
      = ([], [] ++ ["SYS"], .ok ⟨[], some 4⟩) := by
  have h := C9_malformed_thought_amended "Okay.\nthought: \"the person fell\""
    ("the person fell".data) (by decide) rfl rfl (by decide) (by decide)
  exact ⟨h.1, h.2 cfgW9 "SYS" 0 4 [] [] [] [] rfl rfl⟩
